import Mathlib

/-!
# Verification of the recipe-and-ingredient catalog mutations and queries

A shallow embedding of the Django/Strawberry recipe-and-ingredient catalog:
`apps/ingredients` (models, mutations, queries) and `apps/recipes`
(models, mutations, queries).  The relational store is modelled as lists of
rows; each GraphQL mutation becomes a function from a `Store` to a response
together with the successor `Store`; a mutation that can end in an unhandled
exception returns a dedicated result type whose `raised` constructor records
the store at the point of the raise.
-/

namespace CookingApp

/-! ## Python string primitives -/

/-- Python `str.strip()` on a list of characters: drop whitespace from the
front, then from the back. -/
def pyStripList (l : List Char) : List Char :=
  ((l.dropWhile Char.isWhitespace).reverse.dropWhile Char.isWhitespace).reverse

/-- Python `str.strip()`. -/
def pyStrip (s : String) : String :=
  ⟨pyStripList s.data⟩

/-- Python `str.lower()` on one character (ASCII model): code points 65–90
map to 97–122, everything else is unchanged. -/
def pyCharLower (c : Char) : Char :=
  if h : 65 ≤ c.toNat ∧ c.toNat ≤ 90 then
    Char.ofNatAux (c.toNat + 32) (Or.inl (by omega))
  else c

/-- Python `str.lower()` (ASCII model). -/
def pyLower (s : String) : String :=
  ⟨s.data.map pyCharLower⟩

/-- Django `name__iexact`: case-insensitive string equality. -/
def ciEq (a b : String) : Bool :=
  pyLower a == pyLower b

/-- Django `name__icontains`: case-insensitive substring test. -/
def icontains (hay needle : String) : Bool :=
  decide (List.IsInfix (pyLower needle).data (pyLower hay).data)

/-! ## Data model

`Ingredient` from `apps/ingredients/models.py`, `Recipe` and
`RecipeIngredient` from `apps/recipes/models.py`.  Auto-increment primary
keys are modelled by counters in the store; `created_at` timestamps by a
logical clock (only their relative order matters, for the `-created_at`
ordering of recipes). -/

structure Ingredient where
  id : Nat
  name : String
  description : String
  unit : String
deriving Repr, DecidableEq

structure Recipe where
  id : Nat
  name : String
  description : String
  instructions : String
  cooking_time : Int
  created_at : Nat
deriving Repr, DecidableEq

structure RecipeIngredient where
  recipe_id : Nat
  ingredient_id : Nat
  quantity : Rat
  notes : String
deriving Repr, DecidableEq

/-- The relational store: the three tables plus pk counters and the clock. -/
structure Store where
  ingredients : List Ingredient
  recipes : List Recipe
  recipe_ingredients : List RecipeIngredient
  next_ingredient_id : Nat
  next_recipe_id : Nat
  clock : Nat
deriving Repr, DecidableEq

/-- A fresh database. -/
def initStore : Store :=
  ⟨[], [], [], 1, 1, 0⟩

/-! ## GraphQL input and response types -/

structure IngredientInput where
  name : String
  description : String
  unit : String
deriving Repr, DecidableEq

structure IngredientError where
  message : String
  code : String
deriving Repr, DecidableEq

structure IngredientResponse where
  success : Bool
  ingredient : Option Ingredient := none
  error : Option IngredientError := none
deriving Repr, DecidableEq

/-- Result of a mutation that may end in an unhandled exception:
`resp` carries the structured response, `raised` the store at the raise. -/
inductive IngredientResult where
  | resp : IngredientResponse → Store → IngredientResult
  | raised : Store → IngredientResult
deriving Repr, DecidableEq

/-- The store after an `IngredientResult`. -/
def IngredientResult.store : IngredientResult → Store
  | .resp _ s => s
  | .raised s => s

/-! ## Ingredient model validation

`Ingredient.full_clean()`: `name` is required with `max_length=100`,
`unit` is required with `max_length=20`, `description` is a blank-allowed
`TextField`; `validate_unique` rejects an exact `name` match among the
other rows. -/

def full_clean_ok (others : List Ingredient) (name _descr unit : String) : Bool :=
  !(name == "") && decide (name.length ≤ 100) &&
  !(unit == "") && decide (unit.length ≤ 20) &&
  !(others.any (fun i => i.name == name))

/-! ## Ingredient mutations (`apps/ingredients/mutations.py`) -/

/-- `Mutation.create_ingredient`. -/
def create_ingredient (s : Store) (input : IngredientInput) :
    IngredientResponse × Store :=
  let name := pyStrip input.name
  let descr := pyStrip input.description
  let unit := pyLower (pyStrip input.unit)
  if name == "" || unit == "" then
    (⟨false, none, some ⟨"Name and Unit cannot be empty", "EMPTY_FIELD"⟩⟩, s)
  else if s.ingredients.any (fun i => ciEq i.name name) then
    (⟨false, none, some ⟨"Duplicate ingredient name", "DUPLICATE_NAME"⟩⟩, s)
  else if full_clean_ok s.ingredients name descr unit then
    let ing : Ingredient := ⟨s.next_ingredient_id, name, descr, unit⟩
    (⟨true, some ing, none⟩,
      { s with ingredients := s.ingredients ++ [ing],
               next_ingredient_id := s.next_ingredient_id + 1 })
  else
    (⟨false, none, some ⟨"validation failed", "DATABASE_ERROR"⟩⟩, s)

/-- `Mutation.update_ingredient`.  A `full_clean` failure is an unhandled
`ValidationError` (only `Ingredient.DoesNotExist` is caught). -/
def update_ingredient (s : Store) (id : Nat) (input : IngredientInput) :
    IngredientResult :=
  match s.ingredients.find? (fun i => i.id == id) with
  | none => .resp ⟨false, none, some ⟨"Ingredient not found", "NOT_FOUND"⟩⟩ s
  | some _ =>
    let name := pyStrip input.name
    let descr := pyStrip input.description
    let unit := pyLower (pyStrip input.unit)
    if name == "" then
      .resp ⟨false, none, some ⟨"Name cannot be empty", "EMPTY_NAME"⟩⟩ s
    else if s.ingredients.any (fun i => !(i.id == id) && ciEq i.name name) then
      .resp ⟨false, none, some ⟨"Duplicate ingredient name", "DUPLICATE_NAME"⟩⟩ s
    else if full_clean_ok (s.ingredients.filter (fun i => !(i.id == id)))
        name descr unit then
      let ing : Ingredient := ⟨id, name, descr, unit⟩
      .resp ⟨true, some ing, none⟩
        { s with ingredients :=
            s.ingredients.map (fun i => if i.id == id then ing else i) }
    else
      .raised s

/-- `Mutation.delete_ingredient`.  `on_delete=CASCADE` removes the join rows
of the deleted ingredient. -/
def delete_ingredient (s : Store) (id : Nat) : IngredientResponse × Store :=
  match s.ingredients.find? (fun i => i.id == id) with
  | none => (⟨false, none, some ⟨"Ingredient not found", "NOT_FOUND"⟩⟩, s)
  | some ing =>
    (⟨true, some ing, none⟩,
      { s with
          ingredients := s.ingredients.filter (fun i => !(i.id == id)),
          recipe_ingredients :=
            s.recipe_ingredients.filter (fun ri => !(ri.ingredient_id == id)) })

/-! ## Recipe inputs and responses (`apps/recipes/inputs.py`, `responses.py`)

`notes` is `Optional[str] = ""`: a client may pass `null`, so it is an
`Option String`; `notes.strip()` on `None` is an `AttributeError`, caught
by the blanket `except Exception` handlers as `INTERNAL_ERROR`. -/

structure RecipeIngredientInput where
  ingredient_id : Nat
  quantity : Rat
  notes : Option String := some ""
deriving Repr, DecidableEq

structure RecipeInput where
  name : String
  description : String
  instructions : String
  cooking_time : Int
  ingredients : List RecipeIngredientInput
deriving Repr, DecidableEq

structure BulkUpdateRecipeIngredientInput where
  ingredient_id : Nat
  quantity : Rat
  notes : Option String := some ""
deriving Repr, DecidableEq

structure RecipeError where
  message : String
  code : String
deriving Repr, DecidableEq

structure RecipeResponse where
  success : Bool
  recipe : Option Recipe := none
  error : Option RecipeError := none
deriving Repr, DecidableEq

/-! ## Recipe mutations (`apps/recipes/mutations.py`) -/

/-- Outcome of the ingredient loop inside `create_recipe`: the rows to
insert, a `ValidationError` for a missing ingredient id, or any other
exception (an `AttributeError` from `None.strip()`, or the database
`IntegrityError` from the `unique_together` constraint when the input list
repeats an ingredient id). -/
inductive CreateRowsResult where
  | ok : List RecipeIngredient → CreateRowsResult
  | validationError : Nat → CreateRowsResult
  | otherError : CreateRowsResult
deriving Repr, DecidableEq

/-- The `for ingredient_input in input.ingredients` loop of `create_recipe`:
per entry, `Ingredient.objects.get` (missing id raises `ValidationError`),
then `RecipeIngredient.objects.create` — whose arguments evaluate
`notes.strip()` first, and whose insert hits the `unique_together`
constraint if the (recipe, ingredient) pair is already present. -/
def create_recipe_rows (ings : List Ingredient) (existing : List RecipeIngredient)
    (rid : Nat) : List RecipeIngredientInput → CreateRowsResult
  | [] => .ok []
  | item :: rest =>
    if ings.any (fun i => i.id == item.ingredient_id) then
      match item.notes with
      | none => .otherError
      | some n =>
        if existing.any (fun ri =>
            ri.recipe_id == rid && ri.ingredient_id == item.ingredient_id) then
          .otherError
        else
          let row : RecipeIngredient := ⟨rid, item.ingredient_id, item.quantity, pyStrip n⟩
          match create_recipe_rows ings (existing ++ [row]) rid rest with
          | .ok rows => .ok (row :: rows)
          | e => e
    else
      .validationError item.ingredient_id

/-- `Mutation.create_recipe`.  The whole body runs inside
`transaction.atomic()`, so every failure rolls the store back. -/
def create_recipe (s : Store) (input : RecipeInput) : RecipeResponse × Store :=
  let name := pyStrip input.name
  if name == "" then
    (⟨false, none, some ⟨"Name cannot be empty", "EMPTY_NAME"⟩⟩, s)
  else if s.recipes.any (fun r => ciEq r.name name) then
    (⟨false, none,
      some ⟨"Recipe with name " ++ name ++ " already exists", "DUPLICATE_NAME"⟩⟩, s)
  else
    let rid := s.next_recipe_id
    let recipe : Recipe :=
      ⟨rid, name, pyStrip input.description, pyStrip input.instructions,
        input.cooking_time, s.clock⟩
    match create_recipe_rows s.ingredients s.recipe_ingredients rid input.ingredients with
    | .ok rows =>
      (⟨true, some recipe, none⟩,
        { s with recipes := s.recipes ++ [recipe],
                 recipe_ingredients := s.recipe_ingredients ++ rows,
                 next_recipe_id := rid + 1,
                 clock := s.clock + 1 })
    | .validationError missing =>
      (⟨false, none,
        some ⟨"Ingredient with ID " ++ toString missing ++ " not found",
              "VALIDATION_ERROR"⟩⟩, s)
    | .otherError =>
      (⟨false, none, some ⟨"unexpected error", "INTERNAL_ERROR"⟩⟩, s)

/-- `Mutation.add_one_ingredient_to_recipe`. -/
def add_one_ingredient_to_recipe (s : Store) (recipe_id ingredient_id : Nat)
    (quantity : Rat) (notes : Option String) : RecipeResponse × Store :=
  match s.recipes.find? (fun r => r.id == recipe_id) with
  | none =>
    (⟨false, none, some ⟨"Recipe matching query does not exist.", "NOT_FOUND"⟩⟩, s)
  | some recipe =>
    match s.ingredients.find? (fun i => i.id == ingredient_id) with
    | none =>
      (⟨false, none,
        some ⟨"Ingredient matching query does not exist.", "NOT_FOUND"⟩⟩, s)
    | some _ =>
      if s.recipe_ingredients.any (fun ri =>
          ri.recipe_id == recipe_id && ri.ingredient_id == ingredient_id) then
        (⟨false, none,
          some ⟨"Ingredient already exists in recipe", "DUPLICATE_INGREDIENT"⟩⟩, s)
      else
        match notes with
        | none =>
          (⟨false, none,
            some ⟨"NoneType object has no attribute strip", "INTERNAL_ERROR"⟩⟩, s)
        | some n =>
          (⟨true, some recipe, none⟩,
            { s with recipe_ingredients := s.recipe_ingredients ++
                [⟨recipe_id, ingredient_id, quantity, pyStrip n⟩] })

/-- `Mutation.remove_one_ingredient_from_recipe`.  `.first()` then
`.delete()` removes only the first matching join row. -/
def remove_one_ingredient_from_recipe (s : Store) (recipe_id ingredient_id : Nat) :
    RecipeResponse × Store :=
  match s.recipes.find? (fun r => r.id == recipe_id) with
  | none =>
    (⟨false, none, some ⟨"Recipe matching query does not exist.", "NOT_FOUND"⟩⟩, s)
  | some recipe =>
    match s.ingredients.find? (fun i => i.id == ingredient_id) with
    | none =>
      (⟨false, none,
        some ⟨"Ingredient matching query does not exist.", "NOT_FOUND"⟩⟩, s)
    | some _ =>
      if s.recipe_ingredients.any (fun ri =>
          ri.recipe_id == recipe_id && ri.ingredient_id == ingredient_id) then
        (⟨true, some recipe, none⟩,
          { s with recipe_ingredients := s.recipe_ingredients.eraseP (fun ri =>
              ri.recipe_id == recipe_id && ri.ingredient_id == ingredient_id) })
      else
        (⟨false, none, some ⟨"Ingredient not found in recipe", "NOT_FOUND"⟩⟩, s)

/-- `Mutation.delete_recipe`.  `on_delete=CASCADE` removes the join rows of
the deleted recipe. -/
def delete_recipe (s : Store) (recipe_id : Nat) : RecipeResponse × Store :=
  match s.recipes.find? (fun r => r.id == recipe_id) with
  | none =>
    (⟨false, none, some ⟨"Recipe not found", "NOT_FOUND"⟩⟩, s)
  | some _ =>
    (⟨true, none, none⟩,
      { s with
          recipes := s.recipes.filter (fun r => !(r.id == recipe_id)),
          recipe_ingredients :=
            s.recipe_ingredients.filter (fun ri => !(ri.recipe_id == recipe_id)) })

/-- Outcome of the `for ingredient_data in ingredients` loop of
`bulk_update_recipe_ingredients`.  There is no `transaction.atomic()`
around it, so each constructor carries the store reached so far. -/
inductive BulkResult where
  | done : Store → BulkResult
  | missing : Nat → Store → BulkResult
  | internalErr : Store → BulkResult
deriving Repr, DecidableEq

/-- One `update_or_create` step per entry: `Ingredient.objects.get` first
(missing id stops the loop), then the `defaults` dict evaluates
`notes.strip()`, then `update_or_create` fetches the (recipe, ingredient)
row — `MultipleObjectsReturned` if several match — and updates it in place,
or inserts a new row when none matches. -/
def bulk_upsert_rows (rid : Nat) :
    Store → List BulkUpdateRecipeIngredientInput → BulkResult
  | s, [] => .done s
  | s, item :: rest =>
    if s.ingredients.any (fun i => i.id == item.ingredient_id) then
      match item.notes with
      | none => .internalErr s
      | some n =>
        let hits := s.recipe_ingredients.filter (fun ri =>
          ri.recipe_id == rid && ri.ingredient_id == item.ingredient_id)
        if 2 ≤ hits.length then
          .internalErr s
        else if hits.length == 1 then
          bulk_upsert_rows rid
            { s with recipe_ingredients := s.recipe_ingredients.map (fun ri =>
                if ri.recipe_id == rid && ri.ingredient_id == item.ingredient_id then
                  { ri with quantity := item.quantity, notes := pyStrip n }
                else ri) }
            rest
        else
          bulk_upsert_rows rid
            { s with recipe_ingredients := s.recipe_ingredients ++
                [⟨rid, item.ingredient_id, item.quantity, pyStrip n⟩] }
            rest
    else
      .missing item.ingredient_id s

/-- `Mutation.bulk_update_recipe_ingredients`. -/
def bulk_update_recipe_ingredients (s : Store) (recipe_id : Nat)
    (ingredients : List BulkUpdateRecipeIngredientInput) : RecipeResponse × Store :=
  match s.recipes.find? (fun r => r.id == recipe_id) with
  | none =>
    (⟨false, none, some ⟨"Recipe not found", "NOT_FOUND"⟩⟩, s)
  | some recipe =>
    match bulk_upsert_rows recipe_id s ingredients with
    | .done s2 => (⟨true, some recipe, none⟩, s2)
    | .missing _ s2 =>
      (⟨false, none,
        some ⟨"Ingredient matching query does not exist.", "NOT_FOUND"⟩⟩, s2)
    | .internalErr s2 =>
      (⟨false, none, some ⟨"unexpected error", "INTERNAL_ERROR"⟩⟩, s2)

/-! ## List queries (`apps/ingredients/queries.py`, `apps/recipes/queries.py`)

`Ingredient.objects.all()` is ordered by `Meta.ordering = [name]`;
`Recipe.objects.all()` by `Meta.ordering = [-created_at]`.  The store keeps
rows in insertion order, so the querysets are modelled by sorting. -/

/-- `Ingredient.Meta.ordering = [name]`. -/
def ingredientLe (a b : Ingredient) : Prop :=
  a.name ≤ b.name

instance : DecidableRel ingredientLe :=
  fun a b => inferInstanceAs (Decidable (a.name ≤ b.name))

instance : IsTotal Ingredient ingredientLe :=
  ⟨fun a b => le_total a.name b.name⟩

instance : IsTrans Ingredient ingredientLe :=
  ⟨fun _ _ _ h h2 => le_trans h h2⟩

/-- `Recipe.Meta.ordering = [-created_at]`: newest first. -/
def recipeNewer (a b : Recipe) : Prop :=
  b.created_at ≤ a.created_at

instance : DecidableRel recipeNewer :=
  fun a b => inferInstanceAs (Decidable (b.created_at ≤ a.created_at))

instance : IsTotal Recipe recipeNewer :=
  ⟨fun a b => le_total b.created_at a.created_at⟩

instance : IsTrans Recipe recipeNewer :=
  ⟨fun _ _ _ h h2 => le_trans h2 h⟩

/-- The ingredients queryset after the optional `name__icontains` filter
(`if search:` skips the filter for `None` and for the empty string). -/
def ingredients_queryset (s : Store) (search : Option String) : List Ingredient :=
  let qs := List.insertionSort ingredientLe s.ingredients
  match search with
  | none => qs
  | some t => if t == "" then qs else qs.filter (fun i => icontains i.name t)

/-- The recipes queryset after the optional `name__icontains` filter. -/
def recipes_queryset (s : Store) (search : Option String) : List Recipe :=
  let qs := List.insertionSort recipeNewer s.recipes
  match search with
  | none => qs
  | some t => if t == "" then qs else qs.filter (fun r => icontains r.name t)

/-- `django.core.paginator.Paginator.num_pages` with `orphans=0` and
`allow_empty_first_page=True`. -/
def paginator_num_pages (count page_size : Nat) : Nat :=
  (max 1 count + page_size - 1) / page_size

/-- `Query.ingredients`: explicit page guard, `Paginator`, and `[]` when the
page number exceeds `num_pages`.  The `ValueError` is the `error` case. -/
def ingredients_query (s : Store) (page page_size : Int) (search : Option String) :
    Except String (List Ingredient) :=
  if page ≤ 0 ∨ page_size ≤ 0 then
    .error "Page number and page size must be greater than 0."
  else
    let qs := ingredients_queryset s search
    let p := page.toNat
    let ps := page_size.toNat
    if p ≤ paginator_num_pages qs.length ps then
      .ok ((qs.drop ((p - 1) * ps)).take ps)
    else
      .ok []

/-- `Query.recipes`: a raw queryset slice
`queryset[(page - 1) * page_size : page * page_size]`; a negative bound
raises (Django querysets reject negative indexing), the `error` case. -/
def recipes_query (s : Store) (page page_size : Int) (search : Option String) :
    Except String (List Recipe) :=
  let qs := recipes_queryset s search
  let start := (page - 1) * page_size
  let stop := page * page_size
  if start < 0 ∨ stop < 0 then
    .error "Negative indexing is not supported."
  else
    .ok ((qs.drop start.toNat).take (stop.toNat - start.toNat))

/-! ## The mutation step relation and store well-formedness -/

/-- One API mutation call, any arguments. -/
inductive Step : Store → Store → Prop where
  | create_ing (s : Store) (input : IngredientInput) :
      Step s (create_ingredient s input).2
  | update_ing (s : Store) (id : Nat) (input : IngredientInput) :
      Step s (update_ingredient s id input).store
  | delete_ing (s : Store) (id : Nat) :
      Step s (delete_ingredient s id).2
  | create_rec (s : Store) (input : RecipeInput) :
      Step s (create_recipe s input).2
  | add_one (s : Store) (rid iid : Nat) (q : Rat) (notes : Option String) :
      Step s (add_one_ingredient_to_recipe s rid iid q notes).2
  | remove_one (s : Store) (rid iid : Nat) :
      Step s (remove_one_ingredient_from_recipe s rid iid).2
  | delete_rec (s : Store) (rid : Nat) :
      Step s (delete_recipe s rid).2
  | bulk_upd (s : Store) (rid : Nat) (items : List BulkUpdateRecipeIngredientInput) :
      Step s (bulk_update_recipe_ingredients s rid items).2

/-- States reachable from a fresh database by mutation calls. -/
def Reachable (s : Store) : Prop :=
  Relation.ReflTransGen Step initStore s

/-- Constraints the database enforces by construction: primary keys are
pairwise distinct and below the auto-increment counters. -/
structure StoreWF (s : Store) : Prop where
  ing_fresh : ∀ i ∈ s.ingredients, i.id < s.next_ingredient_id
  ing_ids : s.ingredients.Pairwise (fun a b => a.id ≠ b.id)
  rec_fresh : ∀ r ∈ s.recipes, r.id < s.next_recipe_id
  rec_ids : s.recipes.Pairwise (fun a b => a.id ≠ b.id)

/-- The spec invariant: no two ingredients and no two recipes have names
equal up to case. -/
structure NamesCIUnique (s : Store) : Prop where
  ing : s.ingredients.Pairwise (fun a b => pyLower a.name ≠ pyLower b.name)
  rcp : s.recipes.Pairwise (fun a b => pyLower a.name ≠ pyLower b.name)

/-- Two join rows are for different (recipe, ingredient) pairs. -/
def pairDistinct (a b : RecipeIngredient) : Prop :=
  a.recipe_id ≠ b.recipe_id ∨ a.ingredient_id ≠ b.ingredient_id

instance : DecidableRel pairDistinct :=
  fun _ _ => inferInstanceAs (Decidable (_ ∨ _))

/-- The spec invariant: at most one join row per (recipe, ingredient) pair. -/
def PairsUnique (s : Store) : Prop :=
  s.recipe_ingredients.Pairwise pairDistinct

/-! ## Spec-side predicates -/

/-- The store reached by a `BulkResult`. -/
def BulkResult.store : BulkResult → Store
  | .done s => s
  | .missing _ s => s
  | .internalErr s => s

/-- The string has no leading and no trailing whitespace character. -/
def noEdgeWS (t : String) : Bool :=
  !(t.data.head?.elim false Char.isWhitespace) &&
  !(t.data.getLast?.elim false Char.isWhitespace)

/-- The string contains no uppercase ASCII letter. -/
def noUpper (t : String) : Bool :=
  t.data.all (fun c => !(decide (65 ≤ c.toNat ∧ c.toNat ≤ 90)))

/-- An ingredient row as `create_ingredient`/`update_ingredient` store it:
every field stripped and the unit lowercased. -/
def IngredientNormalized (i : Ingredient) : Prop :=
  noEdgeWS i.name = true ∧ noEdgeWS i.description = true ∧
  noEdgeWS i.unit = true ∧ noUpper i.unit = true

/-- The search filter of the list queries, as a predicate on a name. -/
def searchMatches : Option String → String → Bool
  | none, _ => true
  | some t, nm => if t == "" then true else icontains nm t

/-- The row a successful `create_recipe` inserts for one input entry. -/
def recipeRowOf (rid : Nat) (e : RecipeIngredientInput) : RecipeIngredient :=
  ⟨rid, e.ingredient_id, e.quantity, pyStrip (e.notes.getD "")⟩

/-! ## Character and string toolkit -/

theorem char_eq_iff_toNat {c d : Char} : c = d ↔ c.toNat = d.toNat := by
  constructor
  · intro h; rw [h]
  · intro h
    exact Char.ext (UInt32.toNat.inj h)

theorem toNat_pyCharLower (c : Char) :
    (pyCharLower c).toNat =
      if 65 ≤ c.toNat ∧ c.toNat ≤ 90 then c.toNat + 32 else c.toNat := by
  unfold pyCharLower
  split
  · rfl
  · rfl

theorem isWhitespace_iff {c : Char} :
    c.isWhitespace = true ↔
      (c.toNat = 32 ∨ c.toNat = 9 ∨ c.toNat = 13 ∨ c.toNat = 10) := by
  have h1 : (' ' : Char).toNat = 32 := rfl
  have h2 : ('\t' : Char).toNat = 9 := rfl
  have h3 : ('\r' : Char).toNat = 13 := rfl
  have h4 : ('\n' : Char).toNat = 10 := rfl
  unfold Char.isWhitespace
  simp only [Bool.or_eq_true, decide_eq_true_eq, char_eq_iff_toNat, h1, h2, h3, h4]
  tauto

theorem isWhitespace_pyCharLower (c : Char) :
    (pyCharLower c).isWhitespace = c.isWhitespace := by
  by_cases h : 65 ≤ c.toNat ∧ c.toNat ≤ 90
  · have hl := toNat_pyCharLower c
    rw [if_pos h] at hl
    have hc1 : (pyCharLower c).isWhitespace = false := by
      rw [← Bool.not_eq_true, isWhitespace_iff]
      omega
    have hc2 : c.isWhitespace = false := by
      rw [← Bool.not_eq_true, isWhitespace_iff]
      omega
    rw [hc1, hc2]
  · unfold pyCharLower
    rw [dif_neg h]

theorem pyCharLower_not_upper (c : Char) :
    ¬(65 ≤ (pyCharLower c).toNat ∧ (pyCharLower c).toNat ≤ 90) := by
  have hl := toNat_pyCharLower c
  by_cases h : 65 ≤ c.toNat ∧ c.toNat ≤ 90
  · rw [if_pos h] at hl
    omega
  · rw [if_neg h] at hl
    omega

theorem head?_pyStripList {l : List Char} {a : Char} :
    (pyStripList l).head? = some a → a.isWhitespace = false := by
  intro h
  unfold pyStripList at h
  set A := l.dropWhile Char.isWhitespace with hA
  set B := A.reverse.dropWhile Char.isWhitespace with hB
  have hBA : B.reverse <+: A := by
    have h1 : B <:+ A.reverse := List.dropWhile_suffix _
    have h2 := @List.reverse_prefix Char B A.reverse
    rw [List.reverse_reverse] at h2
    exact h2.mpr h1
  obtain ⟨t, ht⟩ := hBA
  have hHA : A.head? = some a := by
    rw [← ht, List.head?_append, h]
    rfl
  have hw := List.head?_dropWhile_not Char.isWhitespace l
  rw [← hA, hHA] at hw
  exact hw

theorem getLast?_pyStripList {l : List Char} {a : Char} :
    (pyStripList l).getLast? = some a → a.isWhitespace = false := by
  intro h
  unfold pyStripList at h
  rw [List.getLast?_reverse] at h
  have hw := List.head?_dropWhile_not Char.isWhitespace
    (l.dropWhile Char.isWhitespace).reverse
  rw [h] at hw
  exact hw

theorem noEdgeWS_pyStrip (t : String) : noEdgeWS (pyStrip t) = true := by
  unfold noEdgeWS pyStrip
  cases hh : (pyStripList t.data).head? with
  | none =>
    cases hl : (pyStripList t.data).getLast? with
    | none => simp [Option.elim, hh, hl]
    | some a => simp [Option.elim, hh, hl, getLast?_pyStripList hl]
  | some a =>
    cases hl : (pyStripList t.data).getLast? with
    | none => simp [Option.elim, hh, hl, head?_pyStripList hh]
    | some b =>
      simp [Option.elim, hh, hl, head?_pyStripList hh, getLast?_pyStripList hl]

theorem noEdgeWS_pyLower_pyStrip (t : String) :
    noEdgeWS (pyLower (pyStrip t)) = true := by
  unfold noEdgeWS pyLower pyStrip
  simp only [List.head?_map, List.getLast?_map]
  cases hh : (pyStripList t.data).head? with
  | none =>
    cases hl : (pyStripList t.data).getLast? with
    | none => simp [Option.elim]
    | some a =>
      simp [Option.elim, isWhitespace_pyCharLower, getLast?_pyStripList hl]
  | some a =>
    cases hl : (pyStripList t.data).getLast? with
    | none => simp [Option.elim, isWhitespace_pyCharLower, head?_pyStripList hh]
    | some b =>
      simp [Option.elim, isWhitespace_pyCharLower,
        head?_pyStripList hh, getLast?_pyStripList hl]

theorem noUpper_pyLower (t : String) : noUpper (pyLower t) = true := by
  unfold noUpper pyLower
  simp only [List.all_eq_true, List.mem_map]
  rintro c ⟨d, _, rfl⟩
  have hu := pyCharLower_not_upper d
  simp only [Bool.not_eq_eq_eq_not, Bool.not_true, decide_eq_false_iff_not]
  exact hu

theorem ingredientNormalized_mk (id : Nat) (nm ds ut : String) :
    IngredientNormalized ⟨id, pyStrip nm, pyStrip ds, pyLower (pyStrip ut)⟩ :=
  ⟨noEdgeWS_pyStrip nm, noEdgeWS_pyStrip ds,
    noEdgeWS_pyLower_pyStrip ut, noUpper_pyLower (pyStrip ut)⟩

theorem ciEq_eq_true_iff {a b : String} : ciEq a b = true ↔ pyLower a = pyLower b := by
  unfold ciEq
  exact beq_iff_eq

theorem ciEq_eq_false_iff {a b : String} :
    ciEq a b = false ↔ pyLower a ≠ pyLower b := by
  rw [← Bool.not_eq_true, not_iff_not]
  exact ciEq_eq_true_iff

/-! ## Case analyses of the mutations -/

/-- The updated row `update_ingredient` writes. -/
def updatedIngredient (id : Nat) (input : IngredientInput) : Ingredient :=
  ⟨id, pyStrip input.name, pyStrip input.description, pyLower (pyStrip input.unit)⟩

theorem create_ingredient_cases (s : Store) (input : IngredientInput) :
    ((create_ingredient s input).1.success = false ∧
      (create_ingredient s input).2 = s) ∨
    ((create_ingredient s input).1.success = true ∧
      pyStrip input.name ≠ "" ∧
      (∀ i ∈ s.ingredients, pyLower i.name ≠ pyLower (pyStrip input.name)) ∧
      (create_ingredient s input).2 =
        { s with
            ingredients := s.ingredients ++
              [⟨s.next_ingredient_id, pyStrip input.name, pyStrip input.description,
                pyLower (pyStrip input.unit)⟩],
            next_ingredient_id := s.next_ingredient_id + 1 }) := by
  by_cases h1 : (pyStrip input.name == "" || pyLower (pyStrip input.unit) == "") = true
  · left
    constructor <;> simp [create_ingredient, h1]
  · rw [Bool.not_eq_true] at h1
    by_cases h2 : s.ingredients.any (fun i => ciEq i.name (pyStrip input.name)) = true
    · left
      constructor <;> simp [create_ingredient, h1, h2]
    · rw [Bool.not_eq_true] at h2
      by_cases h3 : full_clean_ok s.ingredients (pyStrip input.name)
          (pyStrip input.description) (pyLower (pyStrip input.unit)) = true
      · right
        refine ⟨by simp [create_ingredient, h1, h2, h3], ?_, ?_,
          by simp [create_ingredient, h1, h2, h3]⟩
        · intro hc
          rw [Bool.or_eq_false_iff] at h1
          exact absurd (by simpa using hc) (by simpa using h1.1)
        · intro i hi
          rw [List.any_eq_false] at h2
          exact ciEq_eq_false_iff.mp (by simpa using h2 i hi)
      · rw [Bool.not_eq_true] at h3
        left
        constructor <;> simp [create_ingredient, h1, h2, h3]

theorem update_ingredient_cases (s : Store) (id : Nat) (input : IngredientInput) :
    (update_ingredient s id input).store = s ∨
    ((∃ j ∈ s.ingredients, j.id = id) ∧
      pyStrip input.name ≠ "" ∧
      (∀ i ∈ s.ingredients, i.id ≠ id →
        pyLower i.name ≠ pyLower (pyStrip input.name)) ∧
      update_ingredient s id input =
        .resp ⟨true, some (updatedIngredient id input), none⟩
          { s with ingredients := s.ingredients.map (fun i =>
              if i.id = id then updatedIngredient id input else i) }) := by
  cases hf : s.ingredients.find? (fun i => i.id == id) with
  | none =>
    left
    simp [update_ingredient, hf, IngredientResult.store]
  | some j =>
    by_cases h1 : (pyStrip input.name == "") = true
    · left
      simp [update_ingredient, hf, h1, IngredientResult.store]
    · rw [Bool.not_eq_true] at h1
      by_cases h2 : s.ingredients.any
          (fun i => !(i.id == id) && ciEq i.name (pyStrip input.name)) = true
      · left
        simp [update_ingredient, hf, h1, h2, IngredientResult.store]
      · rw [Bool.not_eq_true] at h2
        by_cases h3 : full_clean_ok (s.ingredients.filter (fun i => !(i.id == id)))
            (pyStrip input.name) (pyStrip input.description)
            (pyLower (pyStrip input.unit)) = true
        · right
          refine ⟨⟨j, List.mem_of_find?_eq_some hf, by simpa using List.find?_some hf⟩,
            by simpa using h1, ?_, ?_⟩
          · intro i hi hne
            rw [List.any_eq_false] at h2
            have hx := h2 i hi
            simp only [Bool.and_eq_true, Bool.not_eq_eq_eq_not, Bool.not_true,
              beq_eq_false_iff_ne, not_and] at hx
            have hc : ¬ciEq i.name (pyStrip input.name) = true := hx hne
            rw [Bool.not_eq_true] at hc
            exact ciEq_eq_false_iff.mp hc
          · simp only [update_ingredient, hf, h1, h2, h3]
            simp [updatedIngredient, beq_iff_eq]
        · left
          rw [Bool.not_eq_true] at h3
          simp [update_ingredient, hf, h1, h2, h3, IngredientResult.store]

theorem create_recipe_rows_ok_map {ings : List Ingredient}
    {ex : List RecipeIngredient} {rid : Nat} {items : List RecipeIngredientInput}
    {rows : List RecipeIngredient}
    (h : create_recipe_rows ings ex rid items = .ok rows) :
    rows = items.map (recipeRowOf rid) := by
  induction items generalizing ex rows with
  | nil =>
    simp only [create_recipe_rows] at h
    cases h
    rfl
  | cons item rest ih =>
    simp only [create_recipe_rows] at h
    by_cases hex : ings.any (fun i => i.id == item.ingredient_id) = true
    · rw [if_pos hex] at h
      cases hn : item.notes with
      | none => simp only [hn] at h; cases h
      | some n =>
        simp only [hn] at h
        by_cases hdup : ex.any (fun ri =>
            ri.recipe_id == rid && ri.ingredient_id == item.ingredient_id) = true
        · rw [if_pos hdup] at h; cases h
        · rw [Bool.not_eq_true] at hdup
          rw [hdup] at h
          simp only [Bool.false_eq_true, if_false] at h
          cases hrec : create_recipe_rows ings
              (ex ++ [⟨rid, item.ingredient_id, item.quantity, pyStrip n⟩]) rid rest with
          | ok rows2 =>
            rw [hrec] at h
            cases h
            have := ih hrec
            simp [this, recipeRowOf, hn]
          | validationError m => rw [hrec] at h; cases h
          | otherError => rw [hrec] at h; cases h
    · rw [Bool.not_eq_true] at hex
      rw [hex] at h
      simp only [Bool.false_eq_true, if_false] at h
      cases h

theorem create_recipe_rows_ok_exists {ings : List Ingredient}
    {ex : List RecipeIngredient} {rid : Nat} {items : List RecipeIngredientInput}
    {rows : List RecipeIngredient}
    (h : create_recipe_rows ings ex rid items = .ok rows) :
    ∀ e ∈ items, ∃ i ∈ ings, i.id = e.ingredient_id := by
  induction items generalizing ex rows with
  | nil => intro e he; cases he
  | cons item rest ih =>
    intro e he
    simp only [create_recipe_rows] at h
    by_cases hex : ings.any (fun i => i.id == item.ingredient_id) = true
    · rw [if_pos hex] at h
      cases hn : item.notes with
      | none => simp only [hn] at h; cases h
      | some n =>
        simp only [hn] at h
        by_cases hdup : ex.any (fun ri =>
            ri.recipe_id == rid && ri.ingredient_id == item.ingredient_id) = true
        · rw [if_pos hdup] at h; cases h
        · rw [Bool.not_eq_true] at hdup
          rw [hdup] at h
          simp only [Bool.false_eq_true, if_false] at h
          rcases List.mem_cons.mp he with rfl | he2
          · rw [List.any_eq_true] at hex
            obtain ⟨i, hi, hb⟩ := hex
            exact ⟨i, hi, by simpa using hb⟩
          · cases hrec : create_recipe_rows ings
                (ex ++ [⟨rid, item.ingredient_id, item.quantity, pyStrip n⟩]) rid rest with
            | ok rows2 => exact ih hrec e he2
            | validationError m => rw [hrec] at h; cases h
            | otherError => rw [hrec] at h; cases h
    · rw [Bool.not_eq_true] at hex
      rw [hex] at h
      simp only [Bool.false_eq_true, if_false] at h
      cases h

theorem create_recipe_rows_pairs {ings : List Ingredient}
    {ex : List RecipeIngredient} {rid : Nat} {items : List RecipeIngredientInput}
    {rows : List RecipeIngredient}
    (hex : ex.Pairwise pairDistinct)
    (h : create_recipe_rows ings ex rid items = .ok rows) :
    (ex ++ rows).Pairwise pairDistinct := by
  induction items generalizing ex rows with
  | nil =>
    simp only [create_recipe_rows] at h
    cases h
    simpa using hex
  | cons item rest ih =>
    simp only [create_recipe_rows] at h
    by_cases hav : ings.any (fun i => i.id == item.ingredient_id) = true
    · rw [if_pos hav] at h
      cases hn : item.notes with
      | none => simp only [hn] at h; cases h
      | some n =>
        simp only [hn] at h
        by_cases hdup : ex.any (fun ri =>
            ri.recipe_id == rid && ri.ingredient_id == item.ingredient_id) = true
        · rw [if_pos hdup] at h; cases h
        · rw [Bool.not_eq_true] at hdup
          rw [hdup] at h
          simp only [Bool.false_eq_true, if_false] at h
          cases hrec : create_recipe_rows ings
              (ex ++ [⟨rid, item.ingredient_id, item.quantity, pyStrip n⟩]) rid rest with
          | ok rows2 =>
            rw [hrec] at h
            cases h
            have hex2 : (ex ++ [(⟨rid, item.ingredient_id, item.quantity,
                pyStrip n⟩ : RecipeIngredient)]).Pairwise pairDistinct := by
              rw [List.pairwise_append]
              refine ⟨hex, List.pairwise_singleton _ _, ?_⟩
              intro a ha b hb
              rw [List.mem_singleton] at hb
              subst hb
              rw [List.any_eq_false] at hdup
              have hx := hdup a ha
              simp only [Bool.and_eq_true, beq_iff_eq, not_and] at hx
              unfold pairDistinct
              by_cases hr : a.recipe_id = rid
              · exact Or.inr (by simpa using hx hr)
              · exact Or.inl (by simpa using hr)
            have := ih hex2 hrec
            simpa [List.append_assoc] using this
          | validationError m => rw [hrec] at h; cases h
          | otherError => rw [hrec] at h; cases h
    · rw [Bool.not_eq_true] at hav
      rw [hav] at h
      simp only [Bool.false_eq_true, if_false] at h
      cases h

theorem create_recipe_cases (s : Store) (input : RecipeInput) :
    ((create_recipe s input).1.success = false ∧ (create_recipe s input).2 = s) ∨
    ((create_recipe s input).1.success = true ∧
      pyStrip input.name ≠ "" ∧
      (∀ r ∈ s.recipes, pyLower r.name ≠ pyLower (pyStrip input.name)) ∧
      create_recipe_rows s.ingredients s.recipe_ingredients s.next_recipe_id
        input.ingredients = .ok (input.ingredients.map (recipeRowOf s.next_recipe_id)) ∧
      (create_recipe s input).2 =
        { s with
            recipes := s.recipes ++
              [⟨s.next_recipe_id, pyStrip input.name, pyStrip input.description,
                pyStrip input.instructions, input.cooking_time, s.clock⟩],
            recipe_ingredients := s.recipe_ingredients ++
              input.ingredients.map (recipeRowOf s.next_recipe_id),
            next_recipe_id := s.next_recipe_id + 1,
            clock := s.clock + 1 }) := by
  by_cases h1 : (pyStrip input.name == "") = true
  · left
    constructor <;> simp [create_recipe, h1]
  · rw [Bool.not_eq_true] at h1
    by_cases h2 : s.recipes.any (fun r => ciEq r.name (pyStrip input.name)) = true
    · left
      constructor <;> simp [create_recipe, h1, h2]
    · rw [Bool.not_eq_true] at h2
      cases hrec : create_recipe_rows s.ingredients s.recipe_ingredients
          s.next_recipe_id input.ingredients with
      | ok rows =>
        right
        have hmap := create_recipe_rows_ok_map hrec
        subst hmap
        refine ⟨by simp [create_recipe, h1, h2, hrec], by simpa using h1, ?_,
          by rfl, by simp [create_recipe, h1, h2, hrec]⟩
        intro r hr
        rw [List.any_eq_false] at h2
        exact ciEq_eq_false_iff.mp (by simpa using h2 r hr)
      | validationError m =>
        left
        constructor <;> simp [create_recipe, h1, h2, hrec]
      | otherError =>
        left
        constructor <;> simp [create_recipe, h1, h2, hrec]

theorem add_one_cases (s : Store) (rid iid : Nat) (q : Rat) (notes : Option String) :
    ((add_one_ingredient_to_recipe s rid iid q notes).1.success = false ∧
      (add_one_ingredient_to_recipe s rid iid q notes).2 = s) ∨
    ((add_one_ingredient_to_recipe s rid iid q notes).1.success = true ∧
      (∀ ri ∈ s.recipe_ingredients, ¬(ri.recipe_id = rid ∧ ri.ingredient_id = iid)) ∧
      ∃ n, notes = some n ∧
        (add_one_ingredient_to_recipe s rid iid q notes).2 =
          { s with recipe_ingredients :=
              s.recipe_ingredients ++ [⟨rid, iid, q, pyStrip n⟩] }) := by
  cases hr : s.recipes.find? (fun r => r.id == rid) with
  | none => left; constructor <;> simp [add_one_ingredient_to_recipe, hr]
  | some recipe =>
    cases hi : s.ingredients.find? (fun i => i.id == iid) with
    | none => left; constructor <;> simp [add_one_ingredient_to_recipe, hr, hi]
    | some ing =>
      by_cases hdup : s.recipe_ingredients.any (fun ri =>
          ri.recipe_id == rid && ri.ingredient_id == iid) = true
      · left
        constructor <;> simp [add_one_ingredient_to_recipe, hr, hi, hdup]
      · rw [Bool.not_eq_true] at hdup
        cases hn : notes with
        | none =>
          left
          constructor <;> simp [add_one_ingredient_to_recipe, hr, hi, hdup, hn]
        | some n =>
          right
          refine ⟨by simp [add_one_ingredient_to_recipe, hr, hi, hdup, hn], ?_,
            n, rfl, by simp [add_one_ingredient_to_recipe, hr, hi, hdup, hn]⟩
          intro ri hri
          rw [List.any_eq_false] at hdup
          have := hdup ri hri
          simp only [Bool.and_eq_true, beq_iff_eq] at this
          exact this

theorem remove_one_cases (s : Store) (rid iid : Nat) :
    (remove_one_ingredient_from_recipe s rid iid).2 = s ∨
    (remove_one_ingredient_from_recipe s rid iid).2 =
      { s with recipe_ingredients := s.recipe_ingredients.eraseP (fun ri =>
          ri.recipe_id == rid && ri.ingredient_id == iid) } := by
  cases hr : s.recipes.find? (fun r => r.id == rid) with
  | none => left; simp [remove_one_ingredient_from_recipe, hr]
  | some recipe =>
    cases hi : s.ingredients.find? (fun i => i.id == iid) with
    | none => left; simp [remove_one_ingredient_from_recipe, hr, hi]
    | some ing =>
      by_cases hdup : s.recipe_ingredients.any (fun ri =>
          ri.recipe_id == rid && ri.ingredient_id == iid) = true
      · right; simp [remove_one_ingredient_from_recipe, hr, hi, hdup]
      · rw [Bool.not_eq_true] at hdup
        left
        simp [remove_one_ingredient_from_recipe, hr, hi, hdup]

theorem delete_recipe_cases (s : Store) (rid : Nat) :
    (delete_recipe s rid).2 = s ∨
    (delete_recipe s rid).2 =
      { s with
          recipes := s.recipes.filter (fun r => !(r.id == rid)),
          recipe_ingredients :=
            s.recipe_ingredients.filter (fun ri => !(ri.recipe_id == rid)) } := by
  cases hr : s.recipes.find? (fun r => r.id == rid) with
  | none => left; simp [delete_recipe, hr]
  | some recipe => right; simp [delete_recipe, hr]

theorem bulk_upsert_rows_shape (rid : Nat) (items : List BulkUpdateRecipeIngredientInput)
    (s : Store) :
    ∃ rows, (bulk_upsert_rows rid s items).store = { s with recipe_ingredients := rows } := by
  induction items generalizing s with
  | nil => exact ⟨s.recipe_ingredients, rfl⟩
  | cons item rest ih =>
    simp only [bulk_upsert_rows]
    by_cases hex : s.ingredients.any (fun i => i.id == item.ingredient_id) = true
    · rw [if_pos hex]
      cases hn : item.notes with
      | none =>
        simp only [hn]
        exact ⟨s.recipe_ingredients, rfl⟩
      | some n =>
        simp only [hn]
        by_cases h2 : 2 ≤ (s.recipe_ingredients.filter (fun ri =>
            ri.recipe_id == rid && ri.ingredient_id == item.ingredient_id)).length
        · rw [if_pos h2]
          exact ⟨s.recipe_ingredients, rfl⟩
        · rw [if_neg h2]
          by_cases h1 : ((s.recipe_ingredients.filter (fun ri =>
              ri.recipe_id == rid && ri.ingredient_id == item.ingredient_id)).length == 1) = true
          · rw [if_pos h1]
            obtain ⟨rows, hrows⟩ := ih _
            exact ⟨rows, hrows⟩
          · rw [Bool.not_eq_true] at h1
            rw [h1]
            simp only [Bool.false_eq_true, if_false]
            obtain ⟨rows, hrows⟩ := ih _
            exact ⟨rows, hrows⟩
    · rw [Bool.not_eq_true] at hex
      rw [hex]
      simp only [Bool.false_eq_true, if_false]
      exact ⟨s.recipe_ingredients, rfl⟩

theorem bulk_update_cases (s : Store) (rid : Nat)
    (items : List BulkUpdateRecipeIngredientInput) :
    ((bulk_update_recipe_ingredients s rid items).2 = s ∧
      (∀ r ∈ s.recipes, r.id ≠ rid)) ∨
    (bulk_update_recipe_ingredients s rid items).2 =
      (bulk_upsert_rows rid s items).store := by
  cases hr : s.recipes.find? (fun r => r.id == rid) with
  | none =>
    left
    refine ⟨by simp [bulk_update_recipe_ingredients, hr], ?_⟩
    rw [List.find?_eq_none] at hr
    intro r hrr
    simpa using hr r hrr
  | some recipe =>
    right
    cases hb : bulk_upsert_rows rid s items with
    | done s2 => simp [bulk_update_recipe_ingredients, hr, hb, BulkResult.store]
    | missing m s2 => simp [bulk_update_recipe_ingredients, hr, hb, BulkResult.store]
    | internalErr s2 => simp [bulk_update_recipe_ingredients, hr, hb, BulkResult.store]

theorem delete_ingredient_cases (s : Store) (id : Nat) :
    (delete_ingredient s id).2 = s ∨
    (delete_ingredient s id).2 =
      { s with
          ingredients := s.ingredients.filter (fun i => !(i.id == id)),
          recipe_ingredients :=
            s.recipe_ingredients.filter (fun ri => !(ri.ingredient_id == id)) } := by
  cases hf : s.ingredients.find? (fun i => i.id == id) with
  | none => left; simp [delete_ingredient, hf]
  | some j => right; simp [delete_ingredient, hf]

/-! ## Pair uniqueness machinery -/

theorem pair_filter_length_le_one {l : List RecipeIngredient} {a b : Nat}
    (h : l.Pairwise pairDistinct) :
    (l.filter (fun ri => ri.recipe_id == a && ri.ingredient_id == b)).length ≤ 1 := by
  cases hf : l.filter (fun ri => ri.recipe_id == a && ri.ingredient_id == b) with
  | nil => simp
  | cons x t =>
    cases t with
    | nil => simp
    | cons y t2 =>
      exfalso
      have hpw := h.filter (fun ri => ri.recipe_id == a && ri.ingredient_id == b)
      rw [hf] at hpw
      have hxy : pairDistinct x y :=
        (List.pairwise_cons.mp hpw).1 y (by simp)
      have hx : x ∈ l.filter (fun ri => ri.recipe_id == a && ri.ingredient_id == b) := by
        rw [hf]; simp
      have hy : y ∈ l.filter (fun ri => ri.recipe_id == a && ri.ingredient_id == b) := by
        rw [hf]; simp
      rw [List.mem_filter] at hx hy
      have hx2 := hx.2
      have hy2 := hy.2
      simp only [Bool.and_eq_true, beq_iff_eq] at hx2 hy2
      unfold pairDistinct at hxy
      rcases hxy with hne | hne
      · exact hne (hx2.1.trans hy2.1.symm)
      · exact hne (hx2.2.trans hy2.2.symm)

theorem bulk_map_preserves_ids (rid iid : Nat) (q : Rat) (nt : String)
    (ri : RecipeIngredient) :
    ((if ri.recipe_id == rid && ri.ingredient_id == iid then
        { ri with quantity := q, notes := nt } else ri) : RecipeIngredient).recipe_id
        = ri.recipe_id ∧
    ((if ri.recipe_id == rid && ri.ingredient_id == iid then
        { ri with quantity := q, notes := nt } else ri) : RecipeIngredient).ingredient_id
        = ri.ingredient_id := by
  split <;> exact ⟨rfl, rfl⟩

theorem bulk_upsert_pairs {rid : Nat} {items : List BulkUpdateRecipeIngredientInput}
    {s : Store} (h : s.recipe_ingredients.Pairwise pairDistinct) :
    (bulk_upsert_rows rid s items).store.recipe_ingredients.Pairwise pairDistinct := by
  induction items generalizing s with
  | nil => exact h
  | cons item rest ih =>
    simp only [bulk_upsert_rows]
    by_cases hex : s.ingredients.any (fun i => i.id == item.ingredient_id) = true
    · rw [if_pos hex]
      cases hn : item.notes with
      | none => exact h
      | some n =>
        simp only []
        by_cases h2 : 2 ≤ (s.recipe_ingredients.filter (fun ri =>
            ri.recipe_id == rid && ri.ingredient_id == item.ingredient_id)).length
        · rw [if_pos h2]
          exact h
        · rw [if_neg h2]
          by_cases h1 : ((s.recipe_ingredients.filter (fun ri =>
              ri.recipe_id == rid &&
              ri.ingredient_id == item.ingredient_id)).length == 1) = true
          · rw [if_pos h1]
            apply ih
            simp only []
            rw [List.pairwise_map]
            apply h.imp_of_mem
            intro a b _ _ hab
            have hida := bulk_map_preserves_ids rid item.ingredient_id
              item.quantity (pyStrip n) a
            have hidb := bulk_map_preserves_ids rid item.ingredient_id
              item.quantity (pyStrip n) b
            unfold pairDistinct at hab ⊢
            rw [hida.1, hida.2, hidb.1, hidb.2]
            exact hab
          · rw [Bool.not_eq_true] at h1
            rw [h1]
            simp only [Bool.false_eq_true, if_false]
            apply ih
            simp only []
            rw [List.pairwise_append]
            refine ⟨h, List.pairwise_singleton _ _, ?_⟩
            intro x hx y hy
            rw [List.mem_singleton] at hy
            subst hy
            have hlen0 : (s.recipe_ingredients.filter (fun ri =>
                ri.recipe_id == rid &&
                ri.ingredient_id == item.ingredient_id)).length = 0 := by
              rw [beq_eq_false_iff_ne] at h1
              have hle := @pair_filter_length_le_one s.recipe_ingredients rid
                item.ingredient_id h
              omega
            rw [List.length_eq_zero, List.filter_eq_nil_iff] at hlen0
            have hx2 := hlen0 x hx
            simp only [Bool.and_eq_true, beq_iff_eq, not_and] at hx2
            unfold pairDistinct
            by_cases hr : x.recipe_id = rid
            · exact Or.inr (hx2 hr)
            · exact Or.inl hr
    · rw [Bool.not_eq_true] at hex
      rw [hex]
      simp only [Bool.false_eq_true, if_false]
      exact h

/-- Every mutation preserves pair uniqueness of the join rows. -/
theorem step_pairs {s s2 : Store} (hst : Step s s2) (h : PairsUnique s) :
    PairsUnique s2 := by
  unfold PairsUnique at h ⊢
  cases hst with
  | create_ing input =>
    rcases create_ingredient_cases s input with ⟨_, he⟩ | ⟨_, _, _, he⟩ <;>
      rw [he] <;> exact h
  | update_ing id input =>
    rcases update_ingredient_cases s id input with he | ⟨_, _, _, he⟩
    · rw [he]; exact h
    · rw [he]; exact h
  | delete_ing id =>
    rcases delete_ingredient_cases s id with he | he <;> rw [he]
    · exact h
    · exact h.sublist (List.filter_sublist _)
  | create_rec input =>
    rcases create_recipe_cases s input with ⟨_, he⟩ | ⟨_, _, _, hrec, he⟩ <;> rw [he]
    · exact h
    · exact create_recipe_rows_pairs h hrec
  | add_one rid iid q notes =>
    rcases add_one_cases s rid iid q notes with ⟨_, he⟩ | ⟨_, habs, n, _, he⟩ <;> rw [he]
    · exact h
    · simp only []
      rw [List.pairwise_append]
      refine ⟨h, List.pairwise_singleton _ _, ?_⟩
      intro x hx y hy
      rw [List.mem_singleton] at hy
      subst hy
      have := habs x hx
      unfold pairDistinct
      by_cases hr : x.recipe_id = rid
      · exact Or.inr (fun hc => this ⟨hr, hc⟩)
      · exact Or.inl hr
  | remove_one rid iid =>
    rcases remove_one_cases s rid iid with he | he <;> rw [he]
    · exact h
    · exact h.sublist (List.eraseP_sublist _)
  | delete_rec rid =>
    rcases delete_recipe_cases s rid with he | he <;> rw [he]
    · exact h
    · exact h.sublist (List.filter_sublist _)
  | bulk_upd rid items =>
    rcases bulk_update_cases s rid items with ⟨he, _⟩ | he <;> rw [he]
    · exact h
    · exact bulk_upsert_pairs h

theorem reachable_pairs {s : Store} (h : Reachable s) : PairsUnique s := by
  unfold Reachable at h
  induction h with
  | refl => exact List.Pairwise.nil
  | tail _ hstep ih => exact step_pairs hstep ih

/-! ## Name uniqueness and normalization machinery -/

theorem step_names {s s2 : Store} (hwf : StoreWF s) (hst : Step s s2)
    (h : NamesCIUnique s) : NamesCIUnique s2 := by
  cases hst with
  | create_ing input =>
    rcases create_ingredient_cases s input with ⟨_, he⟩ | ⟨_, _, hno, he⟩ <;> rw [he]
    · exact h
    · refine ⟨?_, h.rcp⟩
      simp only []
      rw [List.pairwise_append]
      refine ⟨h.ing, List.pairwise_singleton _ _, ?_⟩
      intro a ha b hb
      rw [List.mem_singleton] at hb
      subst hb
      exact hno a ha
  | update_ing id input =>
    rcases update_ingredient_cases s id input with he | ⟨_, _, hno, he⟩
    · rw [he]; exact h
    · rw [he]
      refine ⟨?_, h.rcp⟩
      simp only [IngredientResult.store]
      rw [List.pairwise_map]
      apply ((h.ing.and hwf.ing_ids).imp_of_mem)
      intro a b ha hb hab
      obtain ⟨hnames, hids⟩ := hab
      by_cases haid : a.id = id
      · have hbid : b.id ≠ id := fun hc => hids (haid.trans hc.symm)
        rw [if_pos haid, if_neg hbid]
        have := hno b hb hbid
        unfold updatedIngredient
        exact fun hc => this hc.symm
      · rw [if_neg haid]
        by_cases hbid : b.id = id
        · rw [if_pos hbid]
          unfold updatedIngredient
          exact hno a ha haid
        · rw [if_neg hbid]
          exact hnames
  | delete_ing id =>
    rcases delete_ingredient_cases s id with he | he <;> rw [he]
    · exact h
    · exact ⟨h.ing.sublist (List.filter_sublist _), h.rcp⟩
  | create_rec input =>
    rcases create_recipe_cases s input with ⟨_, he⟩ | ⟨_, _, hno, _, he⟩ <;> rw [he]
    · exact h
    · refine ⟨h.ing, ?_⟩
      simp only []
      rw [List.pairwise_append]
      refine ⟨h.rcp, List.pairwise_singleton _ _, ?_⟩
      intro a ha b hb
      rw [List.mem_singleton] at hb
      subst hb
      exact hno a ha
  | add_one rid iid q notes =>
    rcases add_one_cases s rid iid q notes with ⟨_, he⟩ | ⟨_, _, n, _, he⟩ <;> rw [he]
    · exact h
    · exact ⟨h.ing, h.rcp⟩
  | remove_one rid iid =>
    rcases remove_one_cases s rid iid with he | he <;> rw [he]
    · exact h
    · exact ⟨h.ing, h.rcp⟩
  | delete_rec rid =>
    rcases delete_recipe_cases s rid with he | he <;> rw [he]
    · exact h
    · exact ⟨h.ing, h.rcp.sublist (List.filter_sublist _)⟩
  | bulk_upd rid items =>
    rcases bulk_update_cases s rid items with ⟨he, _⟩ | he <;> rw [he]
    · exact h
    · obtain ⟨rows, hrows⟩ := bulk_upsert_rows_shape rid items s
      rw [hrows]
      exact ⟨h.ing, h.rcp⟩

theorem step_normalized {s s2 : Store} (hst : Step s s2)
    (h : ∀ i ∈ s.ingredients, IngredientNormalized i) :
    ∀ i ∈ s2.ingredients, IngredientNormalized i := by
  cases hst with
  | create_ing input =>
    rcases create_ingredient_cases s input with ⟨_, he⟩ | ⟨_, _, _, he⟩ <;> rw [he]
    · exact h
    · intro i hi
      simp only [List.mem_append, List.mem_singleton] at hi
      rcases hi with hi | hi
      · exact h i hi
      · subst hi
        exact ingredientNormalized_mk _ _ _ _
  | update_ing id input =>
    rcases update_ingredient_cases s id input with he | ⟨_, _, _, he⟩
    · rw [he]; exact h
    · rw [he]
      intro i hi
      simp only [IngredientResult.store, List.mem_map] at hi
      obtain ⟨j, hj, hji⟩ := hi
      by_cases hid : j.id = id
      · rw [if_pos hid] at hji
        subst hji
        exact ingredientNormalized_mk _ _ _ _
      · rw [if_neg hid] at hji
        subst hji
        exact h j hj
  | delete_ing id =>
    rcases delete_ingredient_cases s id with he | he <;> rw [he]
    · exact h
    · intro i hi
      exact h i (List.mem_of_mem_filter hi)
  | create_rec input =>
    rcases create_recipe_cases s input with ⟨_, he⟩ | ⟨_, _, _, _, he⟩ <;> rw [he] <;>
      exact h
  | add_one rid iid q notes =>
    rcases add_one_cases s rid iid q notes with ⟨_, he⟩ | ⟨_, _, n, _, he⟩ <;> rw [he] <;>
      exact h
  | remove_one rid iid =>
    rcases remove_one_cases s rid iid with he | he <;> rw [he] <;> exact h
  | delete_rec rid =>
    rcases delete_recipe_cases s rid with he | he <;> rw [he] <;> exact h
  | bulk_upd rid items =>
    rcases bulk_update_cases s rid items with ⟨he, _⟩ | he <;> rw [he]
    · exact h
    · obtain ⟨rows, hrows⟩ := bulk_upsert_rows_shape rid items s
      rw [hrows]
      exact h

theorem reachable_normalized {s : Store} (h : Reachable s) :
    ∀ i ∈ s.ingredients, IngredientNormalized i := by
  unfold Reachable at h
  induction h with
  | refl => intro i hi; cases hi
  | tail _ hstep ih => exact step_normalized hstep ih

/-! ## Bulk upsert postcondition machinery -/

theorem pair_filter_map_update {l : List RecipeIngredient} {rid iid a b : Nat}
    {q : Rat} {nt : String} (hne : a ≠ rid ∨ b ≠ iid) :
    (l.map (fun ri => if ri.recipe_id == rid && ri.ingredient_id == iid then
        { ri with quantity := q, notes := nt } else ri)).filter
      (fun ri => ri.recipe_id == a && ri.ingredient_id == b) =
    l.filter (fun ri => ri.recipe_id == a && ri.ingredient_id == b) := by
  rw [List.filter_map]
  have hcong : l.filter ((fun ri => ri.recipe_id == a && ri.ingredient_id == b) ∘
      (fun ri => if ri.recipe_id == rid && ri.ingredient_id == iid then
        { ri with quantity := q, notes := nt } else ri)) =
      l.filter (fun ri => ri.recipe_id == a && ri.ingredient_id == b) := by
    apply List.filter_congr
    intro x _
    simp only [Function.comp]
    split
    · rfl
    · rfl
  rw [hcong]
  have hid : ∀ x ∈ l.filter (fun ri => ri.recipe_id == a && ri.ingredient_id == b),
      (if x.recipe_id == rid && x.ingredient_id == iid then
        { x with quantity := q, notes := nt } else x) = x := by
    intro x hx
    rw [List.mem_filter] at hx
    have hx2 := hx.2
    simp only [Bool.and_eq_true, beq_iff_eq] at hx2
    rw [if_neg]
    simp only [Bool.and_eq_true, beq_iff_eq, not_and]
    intro hr hi
    rcases hne with hne | hne
    · exact hne (hx2.1.symm.trans hr)
    · exact hne (hx2.2.symm.trans hi)
  rw [List.map_congr_left hid, List.map_id']

theorem pair_filter_map_update_self {l : List RecipeIngredient} {rid iid : Nat}
    {q : Rat} {nt : String} :
    (l.map (fun ri => if ri.recipe_id == rid && ri.ingredient_id == iid then
        { ri with quantity := q, notes := nt } else ri)).filter
      (fun ri => ri.recipe_id == rid && ri.ingredient_id == iid) =
    (l.filter (fun ri => ri.recipe_id == rid && ri.ingredient_id == iid)).map
      (fun ri => { ri with quantity := q, notes := nt }) := by
  rw [List.filter_map]
  have hcong : l.filter ((fun ri => ri.recipe_id == rid && ri.ingredient_id == iid) ∘
      (fun ri => if ri.recipe_id == rid && ri.ingredient_id == iid then
        { ri with quantity := q, notes := nt } else ri)) =
      l.filter (fun ri => ri.recipe_id == rid && ri.ingredient_id == iid) := by
    apply List.filter_congr
    intro x _
    simp only [Function.comp]
    split
    · rfl
    · rfl
  rw [hcong]
  apply List.map_congr_left
  intro x hx
  rw [List.mem_filter] at hx
  rw [if_pos hx.2]

/-- Full postcondition of the `bulk_update_recipe_ingredients` loop when
every listed ingredient exists and no `notes` is null: the loop completes,
the last entry for each listed ingredient id is written to the (recipe,
ingredient) row, and rows of other pairs are untouched. -/
theorem bulk_upsert_rows_spec {rid : Nat} {items : List BulkUpdateRecipeIngredientInput}
    {s : Store}
    (hPU : s.recipe_ingredients.Pairwise pairDistinct)
    (hex : ∀ e ∈ items, ∃ i ∈ s.ingredients, i.id = e.ingredient_id)
    (hnn : ∀ e ∈ items, e.notes ≠ none) :
    ∃ s2, bulk_upsert_rows rid s items = .done s2 ∧
      (∀ iid e, items.reverse.find? (fun x => x.ingredient_id == iid) = some e →
        ∃ ri ∈ s2.recipe_ingredients, ri.recipe_id = rid ∧ ri.ingredient_id = iid ∧
          ri.quantity = e.quantity ∧ ri.notes = pyStrip (e.notes.getD "")) ∧
      (∀ a b, (a ≠ rid ∨ ∀ e ∈ items, e.ingredient_id ≠ b) →
        s2.recipe_ingredients.filter
            (fun ri => ri.recipe_id == a && ri.ingredient_id == b) =
          s.recipe_ingredients.filter
            (fun ri => ri.recipe_id == a && ri.ingredient_id == b)) := by
  induction items generalizing s with
  | nil =>
    refine ⟨s, rfl, ?_, ?_⟩
    · intro iid e hfind
      simp at hfind
    · intro a b _
      rfl
  | cons item rest ih =>
    have hexi := hex item (List.mem_cons_self _ _)
    have hav : s.ingredients.any (fun i => i.id == item.ingredient_id) = true := by
      rw [List.any_eq_true]
      obtain ⟨i, hi, hid⟩ := hexi
      exact ⟨i, hi, by simpa using hid⟩
    obtain ⟨n, hn⟩ := Option.ne_none_iff_exists'.mp (hnn item (List.mem_cons_self _ _))
    have hlen := @pair_filter_length_le_one s.recipe_ingredients rid
      item.ingredient_id hPU
    by_cases hone : (s.recipe_ingredients.filter (fun ri =>
        ri.recipe_id == rid && ri.ingredient_id == item.ingredient_id)).length = 1
    · -- update-in-place branch
      set f : RecipeIngredient → RecipeIngredient := fun ri =>
        if ri.recipe_id == rid && ri.ingredient_id == item.ingredient_id then
          { ri with quantity := item.quantity, notes := pyStrip n } else ri with hf
      set s1 : Store := { s with recipe_ingredients := s.recipe_ingredients.map f }
        with hs1
      have hPU1 : s1.recipe_ingredients.Pairwise pairDistinct := by
        rw [hs1]
        simp only []
        rw [List.pairwise_map]
        apply hPU.imp_of_mem
        intro a b _ _ hab
        have hida := bulk_map_preserves_ids rid item.ingredient_id
          item.quantity (pyStrip n) a
        have hidb := bulk_map_preserves_ids rid item.ingredient_id
          item.quantity (pyStrip n) b
        unfold pairDistinct at hab ⊢
        simp only [hf]
        rw [hida.1, hida.2, hidb.1, hidb.2]
        exact hab
      have hex1 : ∀ e ∈ rest, ∃ i ∈ s1.ingredients, i.id = e.ingredient_id := by
        intro e he
        exact hex e (List.mem_cons_of_mem _ he)
      have hnn1 : ∀ e ∈ rest, e.notes ≠ none := by
        intro e he
        exact hnn e (List.mem_cons_of_mem _ he)
      obtain ⟨s2, hdone, hlast, hframe⟩ := ih hPU1 hex1 hnn1
      refine ⟨s2, ?_, ?_, ?_⟩
      · simp only [bulk_upsert_rows, hav, if_pos, hn]
        rw [if_neg (by omega), if_pos (by simpa using hone)]
        exact hdone
      · intro iid e hfind
        rw [List.reverse_cons, List.find?_append] at hfind
        cases hrf : rest.reverse.find? (fun x => x.ingredient_id == iid) with
        | some e2 =>
          rw [hrf] at hfind
          simp only [Option.or_some] at hfind
          have he2 : e = e2 := by simpa using hfind.symm
          rw [he2]
          exact hlast iid e2 hrf
        | none =>
          rw [hrf] at hfind
          simp only [Option.none_or] at hfind
          have hpi : (item.ingredient_id == iid) = true := by
            cases hpi : (item.ingredient_id == iid) <;>
              simp [List.find?, hpi] at hfind
            rfl
          have hei : e = item := by
            simp [List.find?, hpi] at hfind
            exact hfind.symm
          rw [hei]
          have hiid : item.ingredient_id = iid := by simpa using hpi
          have hnone : ∀ x ∈ rest, x.ingredient_id ≠ iid := by
            rw [List.find?_eq_none] at hrf
            intro x hx
            have := hrf x (by simpa using List.mem_reverse.mpr hx)
            simpa using this
          have hfr := hframe rid iid (Or.inr (fun x hx => hnone x hx))
          obtain ⟨x, hx⟩ := List.length_eq_one.mp hone
          have hrows1 : s1.recipe_ingredients.filter
              (fun ri => ri.recipe_id == rid && ri.ingredient_id == iid) =
              [{ x with quantity := item.quantity, notes := pyStrip n }] := by
            rw [hs1]
            simp only []
            rw [← hiid, hf]
            rw [pair_filter_map_update_self, hx]
            rfl
          rw [hrows1] at hfr
          have hxmem : x ∈ s.recipe_ingredients.filter
              (fun ri => ri.recipe_id == rid && ri.ingredient_id == item.ingredient_id) := by
            rw [hx]
            exact List.mem_singleton_self _
          rw [List.mem_filter] at hxmem
          have hxpair := hxmem.2
          simp only [Bool.and_eq_true, beq_iff_eq] at hxpair
          have hmem2 : ({ x with quantity := item.quantity, notes := pyStrip n } :
              RecipeIngredient) ∈ s2.recipe_ingredients := by
            have : ({ x with quantity := item.quantity, notes := pyStrip n } :
                RecipeIngredient) ∈ s2.recipe_ingredients.filter
                (fun ri => ri.recipe_id == rid && ri.ingredient_id == iid) := by
              rw [hfr]
              exact List.mem_singleton_self _
            exact List.mem_of_mem_filter this
          refine ⟨{ x with quantity := item.quantity, notes := pyStrip n }, hmem2,
            hxpair.1, hiid ▸ hxpair.2, rfl, ?_⟩
          rw [hn]
          rfl
      · intro a b hcond
        have hcond2 : a ≠ rid ∨ ∀ e ∈ rest, e.ingredient_id ≠ b := by
          rcases hcond with hc | hc
          · exact Or.inl hc
          · exact Or.inr (fun e he => hc e (List.mem_cons_of_mem _ he))
        have h1 := hframe a b hcond2
        rw [h1, hs1]
        simp only []
        rw [hf]
        apply pair_filter_map_update
        rcases hcond with hc | hc
        · exact Or.inl hc
        · exact Or.inr (fun hb =>
            hc item (List.mem_cons_self _ _) hb.symm)
    · -- insert branch: no existing row for the pair
      have hzero : (s.recipe_ingredients.filter (fun ri =>
          ri.recipe_id == rid && ri.ingredient_id == item.ingredient_id)).length = 0 := by
        omega
      set nr : RecipeIngredient :=
        ⟨rid, item.ingredient_id, item.quantity, pyStrip n⟩ with hnr
      set s1 : Store := { s with recipe_ingredients := s.recipe_ingredients ++ [nr] }
        with hs1
      have hnomatch : ∀ x ∈ s.recipe_ingredients,
          ¬(x.recipe_id = rid ∧ x.ingredient_id = item.ingredient_id) := by
        rw [List.length_eq_zero, List.filter_eq_nil_iff] at hzero
        intro x hx hc
        exact hzero x hx (by simp [hc.1, hc.2])
      have hPU1 : s1.recipe_ingredients.Pairwise pairDistinct := by
        rw [hs1]
        simp only []
        rw [List.pairwise_append]
        refine ⟨hPU, List.pairwise_singleton _ _, ?_⟩
        intro x hx y hy
        rw [List.mem_singleton] at hy
        subst hy
        have := hnomatch x hx
        unfold pairDistinct
        rw [hnr]
        by_cases hr : x.recipe_id = rid
        · exact Or.inr (fun hc => this ⟨hr, hc⟩)
        · exact Or.inl hr
      have hex1 : ∀ e ∈ rest, ∃ i ∈ s1.ingredients, i.id = e.ingredient_id := by
        intro e he
        exact hex e (List.mem_cons_of_mem _ he)
      have hnn1 : ∀ e ∈ rest, e.notes ≠ none := by
        intro e he
        exact hnn e (List.mem_cons_of_mem _ he)
      obtain ⟨s2, hdone, hlast, hframe⟩ := ih hPU1 hex1 hnn1
      refine ⟨s2, ?_, ?_, ?_⟩
      · simp only [bulk_upsert_rows, hav, if_pos, hn]
        rw [if_neg (by omega)]
        rw [if_neg (by simp [hzero])]
        exact hdone
      · intro iid e hfind
        rw [List.reverse_cons, List.find?_append] at hfind
        cases hrf : rest.reverse.find? (fun x => x.ingredient_id == iid) with
        | some e2 =>
          rw [hrf] at hfind
          simp only [Option.or_some] at hfind
          have he2 : e = e2 := by simpa using hfind.symm
          rw [he2]
          exact hlast iid e2 hrf
        | none =>
          rw [hrf] at hfind
          simp only [Option.none_or] at hfind
          have hpi : (item.ingredient_id == iid) = true := by
            cases hpi : (item.ingredient_id == iid) <;>
              simp [List.find?, hpi] at hfind
            rfl
          have hei : e = item := by
            simp [List.find?, hpi] at hfind
            exact hfind.symm
          rw [hei]
          have hiid : item.ingredient_id = iid := by simpa using hpi
          have hnone : ∀ x ∈ rest, x.ingredient_id ≠ iid := by
            rw [List.find?_eq_none] at hrf
            intro x hx
            have := hrf x (by simpa using List.mem_reverse.mpr hx)
            simpa using this
          have hfr := hframe rid iid (Or.inr (fun x hx => hnone x hx))
          have hrows1 : s1.recipe_ingredients.filter
              (fun ri => ri.recipe_id == rid && ri.ingredient_id == iid) = [nr] := by
            rw [hs1]
            simp only []
            rw [List.filter_append]
            rw [← hiid]
            rw [List.length_eq_zero] at hzero
            rw [hzero]
            simp [hnr]
          rw [hrows1] at hfr
          have hmem2 : nr ∈ s2.recipe_ingredients := by
            have : nr ∈ s2.recipe_ingredients.filter
                (fun ri => ri.recipe_id == rid && ri.ingredient_id == iid) := by
              rw [hfr]
              exact List.mem_singleton_self _
            exact List.mem_of_mem_filter this
          refine ⟨nr, hmem2, rfl, hiid, rfl, ?_⟩
          rw [hn]
          rfl
      · intro a b hcond
        have hcond2 : a ≠ rid ∨ ∀ e ∈ rest, e.ingredient_id ≠ b := by
          rcases hcond with hc | hc
          · exact Or.inl hc
          · exact Or.inr (fun e he => hc e (List.mem_cons_of_mem _ he))
        have h1 := hframe a b hcond2
        rw [h1, hs1]
        simp only []
        rw [List.filter_append]
        have hnrf : ([nr].filter (fun ri => ri.recipe_id == a && ri.ingredient_id == b)) = [] := by
          rw [List.filter_eq_nil_iff]
          intro x hx
          rw [List.mem_singleton] at hx
          subst hx
          rw [hnr]
          simp only [Bool.and_eq_true, beq_iff_eq, not_and]
          intro hr hi
          rcases hcond with hc | hc
          · exact hc hr.symm
          · exact (hc item (List.mem_cons_self _ _)) hi
        rw [hnrf, List.append_nil]

/-! ## Query machinery: pagination arithmetic and sortedness -/

theorem ceil_mul_ge {M ps : Nat} (hps : 0 < ps) :
    M ≤ ((M + ps - 1) / ps) * ps := by
  have hdm := Nat.div_add_mod (M + ps - 1) ps
  have hmod := Nat.mod_lt (M + ps - 1) hps
  obtain ⟨x, hx⟩ : ∃ x, ps * ((M + ps - 1) / ps) = x := ⟨_, rfl⟩
  rw [Nat.mul_comm, hx]
  rw [hx] at hdm
  omega

theorem length_le_of_num_pages_lt {n ps p : Nat} (hps : 1 ≤ ps)
    (hlt : paginator_num_pages n ps < p) : n ≤ (p - 1) * ps := by
  have h1 : n ≤ paginator_num_pages n ps * ps := by
    unfold paginator_num_pages
    calc n ≤ max 1 n := Nat.le_max_right 1 n
      _ ≤ ((max 1 n + ps - 1) / ps) * ps := ceil_mul_ge (by omega)
  have h2 : paginator_num_pages n ps ≤ p - 1 := by omega
  calc n ≤ paginator_num_pages n ps * ps := h1
    _ ≤ (p - 1) * ps := Nat.mul_le_mul_right ps h2

theorem ingredients_queryset_sorted (s : Store) (search : Option String) :
    (ingredients_queryset s search).Sorted ingredientLe := by
  have hs := List.sorted_insertionSort ingredientLe s.ingredients
  cases search with
  | none =>
    simp only [ingredients_queryset]
    exact hs
  | some t =>
    simp only [ingredients_queryset]
    by_cases ht : (t == "") = true
    · rw [if_pos ht]
      exact hs
    · rw [Bool.not_eq_true] at ht
      rw [ht]
      simp only [Bool.false_eq_true, if_false]
      exact hs.filter _

theorem recipes_queryset_sorted (s : Store) (search : Option String) :
    (recipes_queryset s search).Sorted recipeNewer := by
  have hs := List.sorted_insertionSort recipeNewer s.recipes
  cases search with
  | none =>
    simp only [recipes_queryset]
    exact hs
  | some t =>
    simp only [recipes_queryset]
    by_cases ht : (t == "") = true
    · rw [if_pos ht]
      exact hs
    · rw [Bool.not_eq_true] at ht
      rw [ht]
      simp only [Bool.false_eq_true, if_false]
      exact hs.filter _

theorem mem_ingredients_queryset {s : Store} {search : Option String} {i : Ingredient} :
    i ∈ ingredients_queryset s search ↔
      (i ∈ s.ingredients ∧ searchMatches search i.name = true) := by
  have hperm := List.perm_insertionSort ingredientLe s.ingredients
  cases search with
  | none =>
    simp only [ingredients_queryset, searchMatches]
    simp [hperm.mem_iff]
  | some t =>
    simp only [ingredients_queryset, searchMatches]
    by_cases ht : (t == "") = true
    · rw [if_pos ht, if_pos ht]
      simp [hperm.mem_iff]
    · rw [Bool.not_eq_true] at ht
      rw [ht]
      simp only [Bool.false_eq_true, if_false, List.mem_filter]
      rw [hperm.mem_iff]

theorem mem_recipes_queryset {s : Store} {search : Option String} {r : Recipe} :
    r ∈ recipes_queryset s search ↔
      (r ∈ s.recipes ∧ searchMatches search r.name = true) := by
  have hperm := List.perm_insertionSort recipeNewer s.recipes
  cases search with
  | none =>
    simp only [recipes_queryset, searchMatches]
    simp [hperm.mem_iff]
  | some t =>
    simp only [recipes_queryset, searchMatches]
    by_cases ht : (t == "") = true
    · rw [if_pos ht, if_pos ht]
      simp [hperm.mem_iff]
    · rw [Bool.not_eq_true] at ht
      rw [ht]
      simp only [Bool.false_eq_true, if_false, List.mem_filter]
      rw [hperm.mem_iff]

theorem ingredients_query_pos (s : Store) (page page_size : Int)
    (search : Option String) (hp : 1 ≤ page) (hps : 1 ≤ page_size) :
    ingredients_query s page page_size search =
      .ok (((ingredients_queryset s search).drop
        ((page.toNat - 1) * page_size.toNat)).take page_size.toNat) := by
  unfold ingredients_query
  rw [if_neg (by omega)]
  by_cases hle : page.toNat ≤
      paginator_num_pages (ingredients_queryset s search).length page_size.toNat
  · rw [if_pos hle]
  · rw [if_neg hle]
    have hlt : paginator_num_pages (ingredients_queryset s search).length
        page_size.toNat < page.toNat := by omega
    have hlen : (ingredients_queryset s search).length ≤
        (page.toNat - 1) * page_size.toNat :=
      length_le_of_num_pages_lt (by omega) hlt
    rw [List.drop_eq_nil_of_le hlen, List.take_nil]

theorem recipes_query_pos (s : Store) (page page_size : Int)
    (search : Option String) (hp : 1 ≤ page) (hps : 1 ≤ page_size) :
    recipes_query s page page_size search =
      .ok (((recipes_queryset s search).drop
        (((page - 1) * page_size).toNat)).take page_size.toNat) := by
  unfold recipes_query
  rw [if_neg]
  · have harith : (page * page_size).toNat - ((page - 1) * page_size).toNat =
        page_size.toNat := by
      have he : page * page_size = (page - 1) * page_size + page_size := by ring
      have h0 : 0 ≤ (page - 1) * page_size :=
        Int.mul_nonneg (by omega) (by omega)
      rw [he, Int.toNat_add h0 (by omega)]
      omega
    rw [harith]
  · push_neg
    exact ⟨Int.mul_nonneg (by omega) (by omega),
      Int.mul_nonneg (by omega) (by omega)⟩

theorem pyLower_eq_empty_iff {t : String} : pyLower t = "" ↔ t = "" := by
  cases t with
  | mk l =>
    cases l with
    | nil =>
      constructor <;> intro <;> rfl
    | cons c cs =>
      constructor
      · intro h
        cases congrArg String.data h
      · intro h
        cases congrArg String.data h

/-! ## Claim theorems -/

/-- C1, counterexample to the claim as stated: with an ingredient named
Salt stored, `create_ingredient` for the duplicate name Salt but an empty
unit returns `EMPTY_FIELD`, not `DUPLICATE_NAME` — the empty-field check
runs before the duplicate check. -/
theorem C1_counterexample :
    pyLower (pyStrip "Salt") =
      pyLower (Ingredient.name ⟨1, "Salt", "", "g"⟩) ∧
    (create_ingredient ⟨[⟨1, "Salt", "", "g"⟩], [], [], 2, 1, 0⟩
        ⟨"Salt", "", ""⟩).1 =
      ⟨false, none, some ⟨"Name and Unit cannot be empty", "EMPTY_FIELD"⟩⟩ := by
  constructor
  · rfl
  · rfl

/-- C1 (amended): in any database state (distinct primary keys), every
mutation preserves case-insensitive uniqueness of ingredient and recipe
names; and `create_ingredient` (when the stripped name and unit are
nonempty), `update_ingredient` (when the target exists and the stripped
name is nonempty) and `create_recipe` (when the stripped name is nonempty)
return `success = false` with code `DUPLICATE_NAME` and store nothing
whenever the stripped input name equals another existing name up to case. -/
theorem C1_names_ci_unique :
    (∀ s s2 : Store, StoreWF s → NamesCIUnique s → Step s s2 → NamesCIUnique s2) ∧
    (∀ (s : Store) (input : IngredientInput),
      pyStrip input.name ≠ "" → pyStrip input.unit ≠ "" →
      (∃ i ∈ s.ingredients, pyLower i.name = pyLower (pyStrip input.name)) →
      create_ingredient s input =
        (⟨false, none, some ⟨"Duplicate ingredient name", "DUPLICATE_NAME"⟩⟩, s)) ∧
    (∀ (s : Store) (id : Nat) (input : IngredientInput),
      (∃ j ∈ s.ingredients, j.id = id) →
      pyStrip input.name ≠ "" →
      (∃ i ∈ s.ingredients, i.id ≠ id ∧
        pyLower i.name = pyLower (pyStrip input.name)) →
      update_ingredient s id input =
        .resp ⟨false, none, some ⟨"Duplicate ingredient name", "DUPLICATE_NAME"⟩⟩ s) ∧
    (∀ (s : Store) (input : RecipeInput),
      pyStrip input.name ≠ "" →
      (∃ r ∈ s.recipes, pyLower r.name = pyLower (pyStrip input.name)) →
      create_recipe s input =
        (⟨false, none, some ⟨"Recipe with name " ++ pyStrip input.name ++
          " already exists", "DUPLICATE_NAME"⟩⟩, s)) := by
  refine ⟨fun s s2 hwf hn hst => step_names hwf hst hn, ?_, ?_, ?_⟩
  · intro s input hname hunit hdup
    have h1 : (pyStrip input.name == "" || pyLower (pyStrip input.unit) == "") = false := by
      rw [Bool.or_eq_false_iff]
      constructor
      · rw [beq_eq_false_iff_ne]
        exact hname
      · rw [beq_eq_false_iff_ne]
        intro hc
        exact hunit (pyLower_eq_empty_iff.mp hc)
    have h2 : s.ingredients.any (fun i => ciEq i.name (pyStrip input.name)) = true := by
      rw [List.any_eq_true]
      obtain ⟨i, hi, hci⟩ := hdup
      exact ⟨i, hi, ciEq_eq_true_iff.mpr hci⟩
    simp [create_ingredient, h1, h2]
  · intro s id input hex hname hdup
    cases hf : s.ingredients.find? (fun i => i.id == id) with
    | none =>
      exfalso
      rw [List.find?_eq_none] at hf
      obtain ⟨j, hj, hid⟩ := hex
      exact hf j hj (by simpa using hid)
    | some j =>
      have h1 : (pyStrip input.name == "") = false := by
        rw [beq_eq_false_iff_ne]
        exact hname
      have h2 : s.ingredients.any
          (fun i => !(i.id == id) && ciEq i.name (pyStrip input.name)) = true := by
        rw [List.any_eq_true]
        obtain ⟨i, hi, hne, hci⟩ := hdup
        refine ⟨i, hi, ?_⟩
        rw [Bool.and_eq_true]
        exact ⟨by simpa using hne, ciEq_eq_true_iff.mpr hci⟩
      simp [update_ingredient, hf, h1, h2]
  · intro s input hname hdup
    have h1 : (pyStrip input.name == "") = false := by
      rw [beq_eq_false_iff_ne]
      exact hname
    have h2 : s.recipes.any (fun r => ciEq r.name (pyStrip input.name)) = true := by
      rw [List.any_eq_true]
      obtain ⟨r, hr, hci⟩ := hdup
      exact ⟨r, hr, ciEq_eq_true_iff.mpr hci⟩
    simp [create_recipe, h1, h2]

/-- C1 witness: with Salt stored, creating SALT (nonempty unit) is refused
as a duplicate and the store is unchanged. -/
theorem C1_names_ci_unique_witness :
    create_ingredient ⟨[⟨1, "Salt", "", "g"⟩], [], [], 2, 1, 0⟩
        ⟨"SALT", "", "kg"⟩ =
      (⟨false, none, some ⟨"Duplicate ingredient name", "DUPLICATE_NAME"⟩⟩,
        ⟨[⟨1, "Salt", "", "g"⟩], [], [], 2, 1, 0⟩) :=
  C1_names_ci_unique.2.1 _ _ (by decide) (by decide) (by decide)

/-- C2: in every reachable state there is at most one join row per
(recipe, ingredient) pair; `add_one_ingredient_to_recipe` refuses an
existing pair with `DUPLICATE_INGREDIENT` and stores nothing; and
`bulk_update_recipe_ingredients` preserves pair uniqueness from any state
(it updates the existing row instead of inserting a second one). -/
theorem C2_pairs_unique :
    (∀ s : Store, Reachable s → PairsUnique s) ∧
    (∀ (s : Store) (rid iid : Nat) (q : Rat) (notes : Option String),
      (∃ r ∈ s.recipes, r.id = rid) →
      (∃ i ∈ s.ingredients, i.id = iid) →
      (∃ ri ∈ s.recipe_ingredients, ri.recipe_id = rid ∧ ri.ingredient_id = iid) →
      add_one_ingredient_to_recipe s rid iid q notes =
        (⟨false, none, some ⟨"Ingredient already exists in recipe",
          "DUPLICATE_INGREDIENT"⟩⟩, s)) ∧
    (∀ (s : Store) (rid : Nat) (items : List BulkUpdateRecipeIngredientInput),
      PairsUnique s → PairsUnique (bulk_update_recipe_ingredients s rid items).2) := by
  refine ⟨fun s h => reachable_pairs h, ?_, ?_⟩
  · intro s rid iid q notes hr hi hpair
    cases hfr : s.recipes.find? (fun r => r.id == rid) with
    | none =>
      exfalso
      rw [List.find?_eq_none] at hfr
      obtain ⟨r, hrr, hid⟩ := hr
      exact hfr r hrr (by simpa using hid)
    | some r =>
      cases hfi : s.ingredients.find? (fun i => i.id == iid) with
      | none =>
        exfalso
        rw [List.find?_eq_none] at hfi
        obtain ⟨i, hii, hid⟩ := hi
        exact hfi i hii (by simpa using hid)
      | some i =>
        have hdup : s.recipe_ingredients.any (fun ri =>
            ri.recipe_id == rid && ri.ingredient_id == iid) = true := by
          rw [List.any_eq_true]
          obtain ⟨ri, hri, h1, h2⟩ := hpair
          refine ⟨ri, hri, ?_⟩
          rw [Bool.and_eq_true]
          exact ⟨by simpa using h1, by simpa using h2⟩
        simp [add_one_ingredient_to_recipe, hfr, hfi, hdup]
  · intro s rid items h
    rcases bulk_update_cases s rid items with ⟨he, _⟩ | he <;> rw [he]
    · exact h
    · exact bulk_upsert_pairs h

/-- C2 witness: adding an already-present (recipe, ingredient) pair is
refused with `DUPLICATE_INGREDIENT` and the store is unchanged. -/
theorem C2_pairs_unique_witness :
    add_one_ingredient_to_recipe
        ⟨[⟨1, "Salt", "", "g"⟩], [⟨1, "Soup", "d", "i", 5, 0⟩],
          [⟨1, 1, 2, "hot"⟩], 2, 2, 1⟩ 1 1 3 (some "x") =
      (⟨false, none, some ⟨"Ingredient already exists in recipe",
        "DUPLICATE_INGREDIENT"⟩⟩,
        ⟨[⟨1, "Salt", "", "g"⟩], [⟨1, "Soup", "d", "i", 5, 0⟩],
          [⟨1, 1, 2, "hot"⟩], 2, 2, 1⟩) :=
  C2_pairs_unique.2.1 _ 1 1 3 (some "x") (by decide) (by decide) (by decide)

/-- C3: `create_recipe` is all-or-nothing: on success exactly the new
recipe row and one join row per input entry (with that entry's quantity
and stripped notes) are added and the ingredient table is untouched; a
missing ingredient id forces failure; and every failure leaves the store
exactly as it was. -/
theorem C3_create_recipe_transactional :
    ∀ (s : Store) (input : RecipeInput),
      ((∃ e ∈ input.ingredients, ∀ i ∈ s.ingredients, i.id ≠ e.ingredient_id) →
        (create_recipe s input).1.success = false) ∧
      ((create_recipe s input).1.success = false → (create_recipe s input).2 = s) ∧
      ((create_recipe s input).1.success = true →
        (create_recipe s input).2.recipes = s.recipes ++
          [⟨s.next_recipe_id, pyStrip input.name, pyStrip input.description,
            pyStrip input.instructions, input.cooking_time, s.clock⟩] ∧
        (create_recipe s input).2.recipe_ingredients = s.recipe_ingredients ++
          input.ingredients.map (recipeRowOf s.next_recipe_id) ∧
        (create_recipe s input).2.ingredients = s.ingredients) := by
  intro s input
  refine ⟨?_, ?_, ?_⟩
  · intro hmiss
    rcases create_recipe_cases s input with ⟨hsucc, _⟩ | ⟨hsucc, _, _, hrec, _⟩
    · exact hsucc
    · exfalso
      obtain ⟨e, he, hnone⟩ := hmiss
      obtain ⟨i, hi, hid⟩ := create_recipe_rows_ok_exists hrec e he
      exact hnone i hi hid
  · intro hfail
    rcases create_recipe_cases s input with ⟨_, he⟩ | ⟨hsucc, _, _, _, _⟩
    · exact he
    · rw [hsucc] at hfail
      cases hfail
  · intro hsucc
    rcases create_recipe_cases s input with ⟨hfail, _⟩ | ⟨_, _, _, _, he⟩
    · rw [hfail] at hsucc
      cases hsucc
    · rw [he]
      exact ⟨rfl, rfl, rfl⟩

/-- C3 witness: a successful concrete `create_recipe` adds exactly the
recipe and its one join row. -/
theorem C3_create_recipe_transactional_witness :
    (create_recipe ⟨[⟨1, "Salt", "", "g"⟩], [], [], 2, 1, 0⟩
        ⟨" Soup ", "d", "i", 5, [⟨1, 2, some " hot "⟩]⟩).2.recipes =
      [] ++ [⟨1, "Soup", "d", "i", 5, 0⟩] ∧
    (create_recipe ⟨[⟨1, "Salt", "", "g"⟩], [], [], 2, 1, 0⟩
        ⟨" Soup ", "d", "i", 5, [⟨1, 2, some " hot "⟩]⟩).2.recipe_ingredients =
      [] ++ [⟨1, 2, some " hot "⟩].map (recipeRowOf 1) ∧
    (create_recipe ⟨[⟨1, "Salt", "", "g"⟩], [], [], 2, 1, 0⟩
        ⟨" Soup ", "d", "i", 5, [⟨1, 2, some " hot "⟩]⟩).2.ingredients =
      [⟨1, "Salt", "", "g"⟩] :=
  (C3_create_recipe_transactional _ _).2.2 (by decide)

/-- C4: cascade deletion.  Deleting an existing ingredient removes exactly
that ingredient and the join rows referencing it, leaving recipes, the
other ingredients and the other join rows; deleting an existing recipe is
symmetric. -/
theorem C4_cascade_delete :
    (∀ (s : Store) (id : Nat), (∃ i ∈ s.ingredients, i.id = id) →
      (delete_ingredient s id).1.success = true ∧
      (delete_ingredient s id).2.recipes = s.recipes ∧
      (∀ i : Ingredient, i ∈ (delete_ingredient s id).2.ingredients ↔
        (i ∈ s.ingredients ∧ i.id ≠ id)) ∧
      (∀ ri : RecipeIngredient, ri ∈ (delete_ingredient s id).2.recipe_ingredients ↔
        (ri ∈ s.recipe_ingredients ∧ ri.ingredient_id ≠ id))) ∧
    (∀ (s : Store) (rid : Nat), (∃ r ∈ s.recipes, r.id = rid) →
      (delete_recipe s rid).1.success = true ∧
      (delete_recipe s rid).2.ingredients = s.ingredients ∧
      (∀ r : Recipe, r ∈ (delete_recipe s rid).2.recipes ↔
        (r ∈ s.recipes ∧ r.id ≠ rid)) ∧
      (∀ ri : RecipeIngredient, ri ∈ (delete_recipe s rid).2.recipe_ingredients ↔
        (ri ∈ s.recipe_ingredients ∧ ri.recipe_id ≠ rid))) := by
  constructor
  · intro s id hex
    cases hf : s.ingredients.find? (fun i => i.id == id) with
    | none =>
      exfalso
      rw [List.find?_eq_none] at hf
      obtain ⟨i, hi, hid⟩ := hex
      exact hf i hi (by simpa using hid)
    | some j =>
      refine ⟨by simp [delete_ingredient, hf], by simp [delete_ingredient, hf],
        ?_, ?_⟩
      · intro i
        simp [delete_ingredient, hf, List.mem_filter]
      · intro ri
        simp [delete_ingredient, hf, List.mem_filter]
  · intro s rid hex
    cases hf : s.recipes.find? (fun r => r.id == rid) with
    | none =>
      exfalso
      rw [List.find?_eq_none] at hf
      obtain ⟨r, hr, hid⟩ := hex
      exact hf r hr (by simpa using hid)
    | some j =>
      refine ⟨by simp [delete_recipe, hf], by simp [delete_recipe, hf], ?_, ?_⟩
      · intro r
        simp [delete_recipe, hf, List.mem_filter]
      · intro ri
        simp [delete_recipe, hf, List.mem_filter]

/-- C4 witness: deleting ingredient 1 removes its join row and keeps the
recipe; instantiated at the concrete join row. -/
theorem C4_cascade_delete_witness :
    (delete_ingredient ⟨[⟨1, "Salt", "", "g"⟩], [⟨1, "Soup", "d", "i", 5, 0⟩],
        [⟨1, 1, 2, "hot"⟩], 2, 2, 1⟩ 1).1.success = true ∧
    ((⟨1, 1, 2, "hot"⟩ : RecipeIngredient) ∈
      (delete_ingredient ⟨[⟨1, "Salt", "", "g"⟩], [⟨1, "Soup", "d", "i", 5, 0⟩],
        [⟨1, 1, 2, "hot"⟩], 2, 2, 1⟩ 1).2.recipe_ingredients ↔
      ((⟨1, 1, 2, "hot"⟩ : RecipeIngredient) ∈
        ([⟨1, 1, 2, "hot"⟩] : List RecipeIngredient) ∧ (1 : Nat) ≠ 1)) := by
  have h := C4_cascade_delete.1
    ⟨[⟨1, "Salt", "", "g"⟩], [⟨1, "Soup", "d", "i", 5, 0⟩],
      [⟨1, 1, 2, "hot"⟩], 2, 2, 1⟩ 1 (by decide)
  exact ⟨h.1, h.2.2.2 ⟨1, 1, 2, "hot"⟩⟩

/-- C5, counterexample to the claim as stated: (a) when the input list
holds two entries for the same ingredient, the final row carries the last
entry's quantity, so the postcondition fails for the first entry even
though the call succeeds; (b) a null `notes` makes the call fail although
the recipe and every listed ingredient exist. -/
theorem C5_counterexample :
    ((bulk_update_recipe_ingredients
        ⟨[⟨1, "Salt", "", "g"⟩], [⟨1, "Soup", "d", "i", 5, 0⟩], [], 2, 2, 1⟩ 1
        [⟨1, 1, some ""⟩, ⟨1, 2, some ""⟩]).1.success = true ∧
      ¬∃ ri ∈ (bulk_update_recipe_ingredients
        ⟨[⟨1, "Salt", "", "g"⟩], [⟨1, "Soup", "d", "i", 5, 0⟩], [], 2, 2, 1⟩ 1
        [⟨1, 1, some ""⟩, ⟨1, 2, some ""⟩]).2.recipe_ingredients,
        ri.recipe_id = 1 ∧ ri.ingredient_id = 1 ∧ ri.quantity = 1) ∧
    (bulk_update_recipe_ingredients
        ⟨[⟨1, "Salt", "", "g"⟩], [⟨1, "Soup", "d", "i", 5, 0⟩], [], 2, 2, 1⟩ 1
        [⟨1, 1, none⟩]).1.success = false := by
  refine ⟨⟨by decide, ?_⟩, by decide⟩
  decide

/-- C5 (amended): when the store has unique pairs, the recipe exists,
every listed ingredient exists and no entry's notes is null,
`bulk_update_recipe_ingredients` succeeds; afterwards, for each listed
ingredient id, the (recipe, ingredient) row carries the quantity and
stripped notes of the LAST entry of the list with that id (updated in
place if the pair existed, created otherwise), and the rows of every pair
not in the list are unchanged. -/
theorem C5_bulk_upsert_postcondition :
    ∀ (s : Store) (rid : Nat) (items : List BulkUpdateRecipeIngredientInput),
      PairsUnique s →
      (∃ r ∈ s.recipes, r.id = rid) →
      (∀ e ∈ items, ∃ i ∈ s.ingredients, i.id = e.ingredient_id) →
      (∀ e ∈ items, e.notes ≠ none) →
      (bulk_update_recipe_ingredients s rid items).1.success = true ∧
      (∀ (iid : Nat) (e : BulkUpdateRecipeIngredientInput),
        items.reverse.find? (fun x => x.ingredient_id == iid) = some e →
        ∃ ri ∈ (bulk_update_recipe_ingredients s rid items).2.recipe_ingredients,
          ri.recipe_id = rid ∧ ri.ingredient_id = iid ∧
          ri.quantity = e.quantity ∧ ri.notes = pyStrip (e.notes.getD "")) ∧
      (∀ a b : Nat, (a ≠ rid ∨ ∀ e ∈ items, e.ingredient_id ≠ b) →
        (bulk_update_recipe_ingredients s rid items).2.recipe_ingredients.filter
            (fun ri => ri.recipe_id == a && ri.ingredient_id == b) =
          s.recipe_ingredients.filter
            (fun ri => ri.recipe_id == a && ri.ingredient_id == b)) := by
  intro s rid items hPU hrec hex hnn
  obtain ⟨s2, hdone, hlast, hframe⟩ := @bulk_upsert_rows_spec rid items s hPU hex hnn
  cases hfr : s.recipes.find? (fun r => r.id == rid) with
  | none =>
    exfalso
    rw [List.find?_eq_none] at hfr
    obtain ⟨r, hr, hid⟩ := hrec
    exact hfr r hr (by simpa using hid)
  | some r =>
    have hres : bulk_update_recipe_ingredients s rid items =
        (⟨true, some r, none⟩, s2) := by
      simp [bulk_update_recipe_ingredients, hfr, hdone]
    rw [hres]
    exact ⟨rfl, hlast, hframe⟩

/-- C5 witness: a concrete successful bulk upsert. -/
theorem C5_bulk_upsert_postcondition_witness :
    (bulk_update_recipe_ingredients
      ⟨[⟨1, "Salt", "", "g"⟩], [⟨1, "Soup", "d", "i", 5, 0⟩],
        [⟨1, 1, 2, "hot"⟩], 2, 2, 1⟩ 1 [⟨1, 9, some " x "⟩]).1.success = true :=
  (C5_bulk_upsert_postcondition _ 1 _
    (by unfold PairsUnique; exact List.pairwise_singleton _ _)
    (by decide) (by decide) (by decide)).1

/-- C6, counterexample to the claim as stated: `bulk_update_recipe_ingredients`
has no transaction; with ingredient 1 and recipe 1 stored together with
their join row, a bulk update whose second entry names the missing
ingredient 7 returns `success = false` yet the first entry's update (the
quantity changed from 2 to 9) persists. -/
theorem C6_counterexample :
    (bulk_update_recipe_ingredients
        ⟨[⟨1, "Salt", "", "g"⟩], [⟨1, "Soup", "d", "i", 5, 0⟩],
          [⟨1, 1, 2, "hot"⟩], 2, 2, 1⟩ 1
        [⟨1, 9, some "x"⟩, ⟨7, 1, some ""⟩]).1.success = false ∧
    (bulk_update_recipe_ingredients
        ⟨[⟨1, "Salt", "", "g"⟩], [⟨1, "Soup", "d", "i", 5, 0⟩],
          [⟨1, 1, 2, "hot"⟩], 2, 2, 1⟩ 1
        [⟨1, 9, some "x"⟩, ⟨7, 1, some ""⟩]).2 ≠
      ⟨[⟨1, "Salt", "", "g"⟩], [⟨1, "Soup", "d", "i", 5, 0⟩],
        [⟨1, 1, 2, "hot"⟩], 2, 2, 1⟩ := by
  constructor
  · decide
  · decide

/-- C6 (amended): every mutation other than `bulk_update_recipe_ingredients`
that returns `success = false` leaves the store exactly as it was;
`bulk_update_recipe_ingredients` does so when the recipe id does not
exist, but when a later entry's ingredient id is missing the earlier
entries' upserts persist. -/
theorem C6_failure_atomic :
    (∀ (s : Store) (input : IngredientInput),
      (create_ingredient s input).1.success = false →
      (create_ingredient s input).2 = s) ∧
    (∀ (s : Store) (id : Nat) (input : IngredientInput)
        (resp : IngredientResponse) (s2 : Store),
      update_ingredient s id input = .resp resp s2 → resp.success = false →
      s2 = s) ∧
    (∀ (s : Store) (id : Nat),
      (delete_ingredient s id).1.success = false → (delete_ingredient s id).2 = s) ∧
    (∀ (s : Store) (input : RecipeInput),
      (create_recipe s input).1.success = false → (create_recipe s input).2 = s) ∧
    (∀ (s : Store) (rid iid : Nat) (q : Rat) (notes : Option String),
      (add_one_ingredient_to_recipe s rid iid q notes).1.success = false →
      (add_one_ingredient_to_recipe s rid iid q notes).2 = s) ∧
    (∀ (s : Store) (rid iid : Nat),
      (remove_one_ingredient_from_recipe s rid iid).1.success = false →
      (remove_one_ingredient_from_recipe s rid iid).2 = s) ∧
    (∀ (s : Store) (rid : Nat),
      (delete_recipe s rid).1.success = false → (delete_recipe s rid).2 = s) ∧
    (∀ (s : Store) (rid : Nat) (items : List BulkUpdateRecipeIngredientInput),
      (∀ r ∈ s.recipes, r.id ≠ rid) →
      (bulk_update_recipe_ingredients s rid items).2 = s) := by
  refine ⟨?_, ?_, ?_, ?_, ?_, ?_, ?_, ?_⟩
  · intro s input hfail
    rcases create_ingredient_cases s input with ⟨_, he⟩ | ⟨hsucc, _, _, _⟩
    · exact he
    · rw [hsucc] at hfail
      cases hfail
  · intro s id input resp s2 heq hfail
    rcases update_ingredient_cases s id input with he | ⟨_, _, _, he⟩
    · rw [heq] at he
      simpa [IngredientResult.store] using he
    · rw [heq] at he
      cases he
      cases hfail
  · intro s id hfail
    cases hf : s.ingredients.find? (fun i => i.id == id) with
    | none => simp [delete_ingredient, hf]
    | some j =>
      exfalso
      rw [show (delete_ingredient s id).1.success = true by
        simp [delete_ingredient, hf]] at hfail
      cases hfail
  · intro s input hfail
    rcases create_recipe_cases s input with ⟨_, he⟩ | ⟨hsucc, _, _, _, _⟩
    · exact he
    · rw [hsucc] at hfail
      cases hfail
  · intro s rid iid q notes hfail
    rcases add_one_cases s rid iid q notes with ⟨_, he⟩ | ⟨hsucc, _, _, _, _⟩
    · exact he
    · rw [hsucc] at hfail
      cases hfail
  · intro s rid iid hfail
    cases hfr : s.recipes.find? (fun r => r.id == rid) with
    | none => simp [remove_one_ingredient_from_recipe, hfr]
    | some r =>
      cases hfi : s.ingredients.find? (fun i => i.id == iid) with
      | none => simp [remove_one_ingredient_from_recipe, hfr, hfi]
      | some i =>
        by_cases hdup : s.recipe_ingredients.any (fun ri =>
            ri.recipe_id == rid && ri.ingredient_id == iid) = true
        · exfalso
          rw [show (remove_one_ingredient_from_recipe s rid iid).1.success = true by
            simp [remove_one_ingredient_from_recipe, hfr, hfi, hdup]] at hfail
          cases hfail
        · rw [Bool.not_eq_true] at hdup
          simp [remove_one_ingredient_from_recipe, hfr, hfi, hdup]
  · intro s rid hfail
    cases hfr : s.recipes.find? (fun r => r.id == rid) with
    | none => simp [delete_recipe, hfr]
    | some r =>
      exfalso
      rw [show (delete_recipe s rid).1.success = true by
        simp [delete_recipe, hfr]] at hfail
      cases hfail
  · intro s rid items hmiss
    have hfr : s.recipes.find? (fun r => r.id == rid) = none := by
      rw [List.find?_eq_none]
      intro r hr
      simpa using hmiss r hr
    simp [bulk_update_recipe_ingredients, hfr]

/-- C6 witness: a bulk update against a missing recipe id changes nothing. -/
theorem C6_failure_atomic_witness :
    (bulk_update_recipe_ingredients
        ⟨[⟨1, "Salt", "", "g"⟩], [⟨1, "Soup", "d", "i", 5, 0⟩],
          [⟨1, 1, 2, "hot"⟩], 2, 2, 1⟩ 9 [⟨1, 3, some ""⟩]).2 =
      ⟨[⟨1, "Salt", "", "g"⟩], [⟨1, "Soup", "d", "i", 5, 0⟩],
        [⟨1, 1, 2, "hot"⟩], 2, 2, 1⟩ :=
  C6_failure_atomic.2.2.2.2.2.2.2 _ 9 _ (by decide)

/-- C7: pagination and search.  The ingredients query raises for
non-positive page or page size, returns exactly the slice of the filtered
queryset from position (page-1)*page_size through page*page_size - 1,
returns at most page_size rows, and returns [] past the last page; both
querysets contain exactly the rows matching the case-insensitive search;
the recipes query returns the same slice of its filtered queryset. -/
theorem C7_pagination_and_search :
    (∀ (s : Store) (page page_size : Int) (search : Option String),
      page ≤ 0 ∨ page_size ≤ 0 →
      ingredients_query s page page_size search =
        .error "Page number and page size must be greater than 0.") ∧
    (∀ (s : Store) (page page_size : Int) (search : Option String),
      1 ≤ page → 1 ≤ page_size →
      ingredients_query s page page_size search =
        .ok (((ingredients_queryset s search).drop
          ((page.toNat - 1) * page_size.toNat)).take page_size.toNat)) ∧
    (∀ (s : Store) (page page_size : Int) (search : Option String)
        (l : List Ingredient),
      ingredients_query s page page_size search = .ok l →
      l.length ≤ page_size.toNat) ∧
    (∀ (s : Store) (page page_size : Int) (search : Option String),
      1 ≤ page → 1 ≤ page_size →
      (paginator_num_pages (ingredients_queryset s search).length
        page_size.toNat : Int) < page →
      ingredients_query s page page_size search = .ok []) ∧
    (∀ (s : Store) (search : Option String) (i : Ingredient),
      i ∈ ingredients_queryset s search ↔
        (i ∈ s.ingredients ∧ searchMatches search i.name = true)) ∧
    (∀ (s : Store) (page page_size : Int) (search : Option String),
      1 ≤ page → 1 ≤ page_size →
      recipes_query s page page_size search =
        .ok (((recipes_queryset s search).drop
          (((page - 1) * page_size).toNat)).take page_size.toNat)) ∧
    (∀ (s : Store) (search : Option String) (r : Recipe),
      r ∈ recipes_queryset s search ↔
        (r ∈ s.recipes ∧ searchMatches search r.name = true)) := by
  refine ⟨?_, ?_, ?_, ?_, ?_, ?_, ?_⟩
  · intro s page page_size search h
    unfold ingredients_query
    rw [if_pos h]
  · intro s page page_size search hp hps
    exact ingredients_query_pos s page page_size search hp hps
  · intro s page page_size search l h
    by_cases hg : page ≤ 0 ∨ page_size ≤ 0
    · unfold ingredients_query at h
      rw [if_pos hg] at h
      cases h
    · push_neg at hg
      rw [ingredients_query_pos s page page_size search (by omega) (by omega)] at h
      cases h
      rw [List.length_take]
      exact Nat.min_le_left _ _
  · intro s page page_size search hp hps hlt
    rw [ingredients_query_pos s page page_size search hp hps]
    have hlt2 : paginator_num_pages (ingredients_queryset s search).length
        page_size.toNat < page.toNat := by omega
    have hlen : (ingredients_queryset s search).length ≤
        (page.toNat - 1) * page_size.toNat :=
      length_le_of_num_pages_lt (by omega) hlt2
    rw [List.drop_eq_nil_of_le hlen, List.take_nil]
  · intro s search i
    exact mem_ingredients_queryset
  · intro s page page_size search hp hps
    exact recipes_query_pos s page page_size search hp hps
  · intro s search r
    exact mem_recipes_queryset

/-- C7 witness: page 0 raises; instantiated concretely. -/
theorem C7_pagination_and_search_witness :
    ingredients_query ⟨[⟨1, "Salt", "", "g"⟩], [], [], 2, 1, 0⟩ 0 10 none =
      .error "Page number and page size must be greater than 0." :=
  C7_pagination_and_search.1 _ 0 10 none (by decide)

/-- C8: `create_ingredient` answers every invalid input with a structured
failure — `EMPTY_FIELD` for an empty stripped name or unit, and
`DATABASE_ERROR` when `full_clean` model validation fails (reached when
the fields are nonempty and the name is no duplicate) — whereas
`update_ingredient` only has the structured `EMPTY_NAME` failure and ends
in an unhandled exception whenever `full_clean` fails (for example for an
empty stripped unit or an over-long field). -/
theorem C8_validation_asymmetry :
    (∀ (s : Store) (input : IngredientInput),
      pyStrip input.name = "" ∨ pyStrip input.unit = "" →
      create_ingredient s input =
        (⟨false, none, some ⟨"Name and Unit cannot be empty", "EMPTY_FIELD"⟩⟩, s)) ∧
    (∀ (s : Store) (input : IngredientInput),
      pyStrip input.name ≠ "" → pyStrip input.unit ≠ "" →
      (∀ i ∈ s.ingredients, pyLower i.name ≠ pyLower (pyStrip input.name)) →
      full_clean_ok s.ingredients (pyStrip input.name) (pyStrip input.description)
        (pyLower (pyStrip input.unit)) = false →
      create_ingredient s input =
        (⟨false, none, some ⟨"validation failed", "DATABASE_ERROR"⟩⟩, s)) ∧
    (∀ (s : Store) (id : Nat) (input : IngredientInput),
      (∃ j ∈ s.ingredients, j.id = id) →
      pyStrip input.name = "" →
      update_ingredient s id input =
        .resp ⟨false, none, some ⟨"Name cannot be empty", "EMPTY_NAME"⟩⟩ s) ∧
    (∀ (s : Store) (id : Nat) (input : IngredientInput),
      (∃ j ∈ s.ingredients, j.id = id) →
      pyStrip input.name ≠ "" →
      (∀ i ∈ s.ingredients, i.id ≠ id →
        pyLower i.name ≠ pyLower (pyStrip input.name)) →
      full_clean_ok (s.ingredients.filter (fun i => !(i.id == id)))
        (pyStrip input.name) (pyStrip input.description)
        (pyLower (pyStrip input.unit)) = false →
      update_ingredient s id input = .raised s) := by
  refine ⟨?_, ?_, ?_, ?_⟩
  · intro s input h
    have hguard : (pyStrip input.name == "" || pyLower (pyStrip input.unit) == "")
        = true := by
      rcases h with h | h
      · rw [Bool.or_eq_true]
        exact Or.inl (by simpa using h)
      · rw [Bool.or_eq_true]
        refine Or.inr ?_
        rw [beq_iff_eq, pyLower_eq_empty_iff]
        exact h
    simp [create_ingredient, hguard]
  · intro s input hname hunit hnodup hclean
    have h1 : (pyStrip input.name == "" || pyLower (pyStrip input.unit) == "")
        = false := by
      rw [Bool.or_eq_false_iff]
      constructor
      · rw [beq_eq_false_iff_ne]
        exact hname
      · rw [beq_eq_false_iff_ne]
        intro hc
        exact hunit (pyLower_eq_empty_iff.mp hc)
    have h2 : s.ingredients.any (fun i => ciEq i.name (pyStrip input.name))
        = false := by
      rw [List.any_eq_false]
      intro i hi
      rw [Bool.not_eq_true, ciEq_eq_false_iff]
      exact hnodup i hi
    simp [create_ingredient, h1, h2, hclean]
  · intro s id input hex hname
    cases hf : s.ingredients.find? (fun i => i.id == id) with
    | none =>
      exfalso
      rw [List.find?_eq_none] at hf
      obtain ⟨j, hj, hid⟩ := hex
      exact hf j hj (by simpa using hid)
    | some j =>
      have h1 : (pyStrip input.name == "") = true := by simpa using hname
      simp [update_ingredient, hf, h1]
  · intro s id input hex hname hnodup hclean
    cases hf : s.ingredients.find? (fun i => i.id == id) with
    | none =>
      exfalso
      rw [List.find?_eq_none] at hf
      obtain ⟨j, hj, hid⟩ := hex
      exact hf j hj (by simpa using hid)
    | some j =>
      have h1 : (pyStrip input.name == "") = false := by
        rw [beq_eq_false_iff_ne]
        exact hname
      have h2 : s.ingredients.any
          (fun i => !(i.id == id) && ciEq i.name (pyStrip input.name)) = false := by
        rw [List.any_eq_false]
        intro i hi
        rw [Bool.not_eq_true]
        by_cases hid : i.id = id
        · simp [hid]
        · have := hnodup i hi hid
          rw [Bool.and_eq_false_iff]
          right
          rw [ciEq_eq_false_iff]
          exact this
      simp [update_ingredient, hf, h1, h2, hclean]

/-- C8 witness: updating the stored ingredient with an empty unit ends in
an unhandled exception. -/
theorem C8_validation_asymmetry_witness :
    update_ingredient ⟨[⟨1, "Salt", "", "g"⟩], [], [], 2, 1, 0⟩ 1
        ⟨"Salt", "", " "⟩ =
      .raised ⟨[⟨1, "Salt", "", "g"⟩], [], [], 2, 1, 0⟩ :=
  C8_validation_asymmetry.2.2.2 _ 1 _ (by decide) (by decide) (by decide)
    (by decide)

/-- C9: in every state reachable through the mutations, every stored
ingredient has a name, description and unit with no leading or trailing
whitespace, and a unit with no uppercase letter. -/
theorem C9_fields_normalized :
    ∀ s : Store, Reachable s →
      ∀ i ∈ s.ingredients,
        noEdgeWS i.name = true ∧ noEdgeWS i.description = true ∧
        noEdgeWS i.unit = true ∧ noUpper i.unit = true := by
  intro s h i hi
  exact reachable_normalized h i hi

/-- C9 witness: the ingredient stored by a concrete `create_ingredient`
call on raw input is normalized. -/
theorem C9_fields_normalized_witness :
    noEdgeWS "Salt" = true ∧ noEdgeWS "x" = true ∧
    noEdgeWS "g" = true ∧ noUpper "g" = true :=
  C9_fields_normalized _
    (Relation.ReflTransGen.single
      (Step.create_ing initStore ⟨" Salt ", " x ", " G "⟩))
    ⟨1, "Salt", "x", "g"⟩ (by decide)

/-- C10: the ingredients queryset and every ingredients query result are
sorted by ascending name; the recipes queryset and every recipes query
result are sorted newest-first by creation time — with or without a
search filter. -/
theorem C10_query_ordering :
    (∀ (s : Store) (search : Option String),
      (ingredients_queryset s search).Sorted ingredientLe) ∧
    (∀ (s : Store) (search : Option String),
      (recipes_queryset s search).Sorted recipeNewer) ∧
    (∀ (s : Store) (page page_size : Int) (search : Option String)
        (l : List Ingredient),
      ingredients_query s page page_size search = .ok l → l.Sorted ingredientLe) ∧
    (∀ (s : Store) (page page_size : Int) (search : Option String)
        (l : List Recipe),
      recipes_query s page page_size search = .ok l → l.Sorted recipeNewer) := by
  refine ⟨ingredients_queryset_sorted, recipes_queryset_sorted, ?_, ?_⟩
  · intro s page page_size search l h
    by_cases hg : page ≤ 0 ∨ page_size ≤ 0
    · unfold ingredients_query at h
      rw [if_pos hg] at h
      cases h
    · push_neg at hg
      rw [ingredients_query_pos s page page_size search (by omega) (by omega)] at h
      cases h
      exact (ingredients_queryset_sorted s search).sublist
        ((List.take_sublist _ _).trans (List.drop_sublist _ _))
  · intro s page page_size search l h
    simp only [recipes_query] at h
    split at h
    · cases h
    · cases h
      exact (recipes_queryset_sorted s search).sublist
        ((List.take_sublist _ _).trans (List.drop_sublist _ _))

/-- C10 witness: a concrete query result is sorted by name. -/
theorem C10_query_ordering_witness :
    ([⟨1, "Salt", "", "g"⟩] : List Ingredient).Sorted ingredientLe :=
  C10_query_ordering.2.2.1
    ⟨[⟨1, "Salt", "", "g"⟩], [], [], 2, 1, 0⟩ 1 10 none
    [⟨1, "Salt", "", "g"⟩] (by rfl)

end CookingApp
